import Mathlib

/-!
Verification of the streaming chat session engine of the
`hasky-os-chat-widget` repository (`src/hooks/use-chat.ts`).

The development shallowly embeds the engine's pure core: the JSON values the
code manipulates (`JSON.parse` / `JSON.stringify` are modelled by an
executable parser/printer pair over a `Json` inductive; numbers are
restricted to integers, which covers every payload the engine produces), the
SSE line parser `parseSSELine`, the inline-payload extractors
`parseSuggestedResponses` / `parseProductSuggestions` (whose fixed regular
expressions are modelled by direct backtracking scanners with the same
leftmost/lazy semantics), the storage layer
(`loadCachedChat` / `saveChatToStorage` / `clearChatStorage`), and the
`sendMessage` / `clearMessages` / `startNewChat` operations of the `useChat`
hook, with the browser's impure inputs (generated ids, clock, HTTP response,
stream read chunks) passed explicitly.  JavaScript `Date` instants are
modelled opaquely by their serialized string form.
-/

set_option maxHeartbeats 1000000
set_option maxRecDepth 100000

namespace ChatWidget

/-! ## JavaScript string primitives -/

/-- Whitespace for JavaScript's `String.prototype.trim` and the regex class
denoted by backslash-s: space, tab, line feed, carriage return, form feed,
vertical tab. -/
def jsIsSpace (c : Char) : Bool :=
  c = ' ' || c = '\t' || c = '\n' || c = '\r' || c = '\x0c' || c = '\x0b'

/-- Whitespace accepted between JSON tokens by `JSON.parse`. -/
def jsonIsWs (c : Char) : Bool :=
  c = ' ' || c = '\t' || c = '\n' || c = '\r'

def dropWhileSpace : List Char → List Char
  | [] => []
  | c :: cs => if jsIsSpace c then dropWhileSpace cs else c :: cs

/-- `String.prototype.trim()`. -/
def jsTrim (s : String) : String :=
  ⟨dropWhileSpace (dropWhileSpace s.data.reverse).reverse⟩

def startsWithL : List Char → List Char → Bool
  | _, [] => true
  | [], _ :: _ => false
  | c :: cs, p :: ps => c = p && startsWithL cs ps

/-- `String.prototype.startsWith(p)`. -/
def jsStartsWith (s p : String) : Bool :=
  startsWithL s.data p.data

/-- Split a character list at every line feed (the engine splits its read
buffer with `split('\n')`). -/
def splitNl : List Char → List (List Char)
  | [] => [[]]
  | c :: cs =>
    if c = '\n' then [] :: splitNl cs
    else
      match splitNl cs with
      | [] => [[c]]
      | l :: ls => (c :: l) :: ls

/-- `String.prototype.includes(p)`: `p` occurs as a contiguous substring. -/
def includesL : List Char → List Char → Bool
  | cs, p => startsWithL cs p ||
      match cs with
      | [] => false
      | _ :: rest => includesL rest p

def jsIncludes (s p : String) : Bool :=
  includesL s.data p.data

/-! ## JSON values -/

inductive Json where
  | null
  | bool (b : Bool)
  | num (n : Int)
  | str (s : String)
  | arr (elems : List Json)
  | obj (fields : List (String × Json))
deriving Repr

/-- JavaScript truthiness of a JSON value (`undefined` is represented by
`Option.none` at use sites, never by a `Json`). -/
def jsTruthy : Json → Bool
  | .null => false
  | .bool b => b
  | .num n => n ≠ 0
  | .str s => s ≠ ""
  | .arr _ => true
  | .obj _ => true

/-- Property lookup on an object: last binding wins, mirroring JavaScript
object construction where later duplicate keys overwrite earlier ones. -/
def jLookup (fields : List (String × Json)) (k : String) : Option Json :=
  List.lookup k fields.reverse

/-- JavaScript property access `v[k]`: throws a `TypeError` (modelled by
`Except.error`) when the receiver is `null`; yields `undefined` (`none`) on
other non-objects. -/
def jsGetField : Json → String → Except Unit (Option Json)
  | .null, _ => .error ()
  | .obj fs, k => .ok (jLookup fs k)
  | _, _ => .ok none

/-- `v[k]` where the receiver is known not to be `null`. -/
def jGet (j : Json) : String → Option Json
  | k =>
    match j with
    | .obj fs => jLookup fs k
    | _ => none

/-- String coercion of an array element inside `Array.prototype.toString`:
`null` elements print as the empty string. -/
def jsToStringDepth : Nat → Json → String
  | _, .null => "null"
  | _, .bool true => "true"
  | _, .bool false => "false"
  | _, .num n => toString n
  | _, .str s => s
  | 0, .arr _ => ""
  | d + 1, .arr xs =>
    String.intercalate ","
      (xs.map fun x =>
        match x with
        | .null => ""
        | y => jsToStringDepth d y)
  | _, .obj _ => "[object Object]"

/-- JavaScript `String(v)` coercion (arrays join their elements with commas;
plain objects print as `[object Object]`). -/
def jsToString (j : Json) : String :=
  jsToStringDepth 16 j

/-! ## `JSON.stringify` -/

/-- Lower-case hexadecimal digit, as emitted in `\u00xx` escapes. -/
def hexDigit (n : Nat) : Char :=
  if n < 10 then Char.ofNat (48 + n) else Char.ofNat (87 + n)

/-- The characters `JSON.stringify` emits for one character of a string. -/
def escapeChar (c : Char) : List Char :=
  if c = '"' then ['\\', '"']
  else if c = '\\' then ['\\', '\\']
  else if c = '\x08' then ['\\', 'b']
  else if c = '\x0c' then ['\\', 'f']
  else if c = '\n' then ['\\', 'n']
  else if c = '\r' then ['\\', 'r']
  else if c = '\t' then ['\\', 't']
  else if c.toNat < 32 then
    ['\\', 'u', '0', '0', hexDigit (c.toNat / 16), hexDigit (c.toNat % 16)]
  else [c]

def escapeList : List Char → List Char
  | [] => []
  | c :: cs => escapeChar c ++ escapeList cs

/-- A JSON string literal, quotes included. -/
def escapeString (s : String) : List Char :=
  '"' :: (escapeList s.data ++ ['"'])

def natDigitsAux : Nat → Nat → List Char
  | 0, _ => []
  | fuel + 1, n =>
    if n < 10 then [Char.ofNat (48 + n)]
    else natDigitsAux fuel (n / 10) ++ [Char.ofNat (48 + n % 10)]

/-- Decimal digits of a natural number. -/
def natChars (n : Nat) : List Char :=
  natDigitsAux (n + 1) n

/-- Decimal rendering of an integer. -/
def intChars (n : Int) : List Char :=
  if n < 0 then '-' :: natChars n.natAbs else natChars n.natAbs

mutual
/-- `JSON.stringify`, as a character list (no added whitespace, fields in
object order — later duplicates are never produced by the engine). -/
def stringifyChars : Json → List Char
  | .null => "null".data
  | .bool true => "true".data
  | .bool false => "false".data
  | .num n => intChars n
  | .str s => escapeString s
  | .arr xs => '[' :: (stringifyElems xs ++ [']'])
  | .obj fs => '\x7b' :: (stringifyFields fs ++ ['\x7d'])

def stringifyElems : List Json → List Char
  | [] => []
  | [x] => stringifyChars x
  | x :: y :: ys => stringifyChars x ++ ',' :: stringifyElems (y :: ys)

def stringifyFields : List (String × Json) → List Char
  | [] => []
  | [(k, v)] => escapeString k ++ ':' :: stringifyChars v
  | (k, v) :: f :: fs =>
    escapeString k ++ ':' :: stringifyChars v ++ ',' :: stringifyFields (f :: fs)
end

def Json.stringify (j : Json) : String :=
  ⟨stringifyChars j⟩

/-! ## `JSON.parse`

An executable recursive-descent parser.  JSON numbers are restricted to
optionally signed integers (the engine never produces fractional or
exponent-form numbers); everything else follows the JSON grammar accepted by
`JSON.parse`, including whitespace between tokens, string escapes and
rejection of raw control characters inside strings. -/

def skipWs : List Char → List Char
  | [] => []
  | c :: cs => if jsonIsWs c then skipWs cs else c :: cs

def hexVal (c : Char) : Option Nat :=
  if '0' ≤ c && c ≤ '9' then some (c.toNat - 48)
  else if 'a' ≤ c && c ≤ 'f' then some (c.toNat - 87)
  else if 'A' ≤ c && c ≤ 'F' then some (c.toNat - 55)
  else none

/-- Four hexadecimal digits of a `\uXXXX` escape, with their value. -/
def hex4 : List Char → Option (Nat × List Char)
  | h1 :: h2 :: h3 :: h4 :: rest =>
    match hexVal h1, hexVal h2, hexVal h3, hexVal h4 with
    | some v1, some v2, some v3, some v4 =>
      some (((v1 * 16 + v2) * 16 + v3) * 16 + v4, rest)
    | _, _, _, _ => none
  | _ => none

/-- Body of a JSON string literal (after the opening quote); returns the
decoded characters and the input after the closing quote.  Fuel bounds the
number of decoded characters. -/
def parseStringBody : Nat → List Char → Option (List Char × List Char)
  | 0, _ => none
  | _ + 1, [] => none
  | fuel + 1, c :: cs =>
    if c = '"' then some ([], cs)
    else if c = '\\' then
      match cs with
      | [] => none
      | e :: cs2 =>
        if e = '"' then (parseStringBody fuel cs2).map (fun p => ('"' :: p.1, p.2))
        else if e = '\\' then (parseStringBody fuel cs2).map (fun p => ('\\' :: p.1, p.2))
        else if e = '/' then (parseStringBody fuel cs2).map (fun p => ('/' :: p.1, p.2))
        else if e = 'b' then (parseStringBody fuel cs2).map (fun p => ('\x08' :: p.1, p.2))
        else if e = 'f' then (parseStringBody fuel cs2).map (fun p => ('\x0c' :: p.1, p.2))
        else if e = 'n' then (parseStringBody fuel cs2).map (fun p => ('\n' :: p.1, p.2))
        else if e = 'r' then (parseStringBody fuel cs2).map (fun p => ('\r' :: p.1, p.2))
        else if e = 't' then (parseStringBody fuel cs2).map (fun p => ('\t' :: p.1, p.2))
        else if e = 'u' then
          match hex4 cs2 with
          | some (v, cs3) =>
            (parseStringBody fuel cs3).map (fun p => (Char.ofNat v :: p.1, p.2))
          | none => none
        else none
    else if c.toNat < 32 then none
    else (parseStringBody fuel cs).map (fun p => (c :: p.1, p.2))

/-- Longest digit run at the head of the input, with its value. -/
def parseDigits : List Char → Nat → List Char × Nat
  | [], acc => ([], acc)
  | c :: cs, acc =>
    if c.isDigit then parseDigits cs (acc * 10 + (c.toNat - 48))
    else (c :: cs, acc)

/-- An integer JSON number at the head of the input. -/
def parseIntNum : List Char → Option (Int × List Char)
  | [] => none
  | c :: cs =>
    if c = '-' then
      match cs with
      | [] => none
      | d :: ds =>
        if d.isDigit then
          let r := parseDigits (d :: ds) 0
          some (-(r.2 : Int), r.1)
        else none
    else if c.isDigit then
      let r := parseDigits (c :: cs) 0
      some ((r.2 : Int), r.1)
    else none

/-- Expect a literal character sequence; return the rest of the input. -/
def expectLit : List Char → List Char → Option (List Char)
  | cs, [] => some cs
  | [], _ :: _ => none
  | c :: cs, p :: ps => if c = p then expectLit cs ps else none

mutual
/-- One JSON value at the head of the input (leading whitespace already
skipped); returns the value and the remaining input. -/
def parseVal : Nat → List Char → Option (Json × List Char)
  | 0, _ => none
  | _ + 1, [] => none
  | fuel + 1, c :: cs =>
    if c = 'n' then
      match expectLit cs ['u', 'l', 'l'] with
      | some rest => some (.null, rest)
      | none => none
    else if c = 't' then
      match expectLit cs ['r', 'u', 'e'] with
      | some rest => some (.bool true, rest)
      | none => none
    else if c = 'f' then
      match expectLit cs ['a', 'l', 's', 'e'] with
      | some rest => some (.bool false, rest)
      | none => none
    else if c = '"' then
      (parseStringBody (cs.length + 1) cs).map (fun p => (.str ⟨p.1⟩, p.2))
    else if c = '[' then
      match skipWs cs with
      | [] => none
      | d :: ds =>
        if d = ']' then some (.arr [], ds)
        else (parseElems fuel (d :: ds)).map (fun p => (.arr p.1, p.2))
    else if c = '\x7b' then
      match skipWs cs with
      | [] => none
      | d :: ds =>
        if d = '\x7d' then some (.obj [], ds)
        else (parseMembers fuel (d :: ds)).map (fun p => (.obj p.1, p.2))
    else
      (parseIntNum (c :: cs)).map (fun p => (.num p.1, p.2))

/-- Non-empty comma-separated element list of an array, including the
closing bracket. -/
def parseElems : Nat → List Char → Option (List Json × List Char)
  | 0, _ => none
  | fuel + 1, cs =>
    match parseVal fuel cs with
    | none => none
    | some (x, rest) =>
      match skipWs rest with
      | [] => none
      | d :: ds =>
        if d = ',' then (parseElems fuel (skipWs ds)).map (fun p => (x :: p.1, p.2))
        else if d = ']' then some ([x], ds)
        else none

/-- Non-empty member list of an object, including the closing brace. -/
def parseMembers : Nat → List Char → Option (List (String × Json) × List Char)
  | 0, _ => none
  | fuel + 1, cs =>
    match cs with
    | '"' :: cs1 =>
      match parseStringBody (cs1.length + 1) cs1 with
      | none => none
      | some (k, rest) =>
        match skipWs rest with
        | [] => none
        | d :: ds =>
          if d = ':' then
            match parseVal fuel (skipWs ds) with
            | none => none
            | some (v, rest3) =>
              match skipWs rest3 with
              | [] => none
              | d2 :: ds2 =>
                if d2 = ',' then
                  (parseMembers fuel (skipWs ds2)).map (fun p => ((⟨k⟩, v) :: p.1, p.2))
                else if d2 = '\x7d' then some ([(⟨k⟩, v)], ds2)
                else none
          else none
    | _ => none
end

/-- `JSON.parse`: `none` models a thrown `SyntaxError`. -/
def Json.parse (s : String) : Option Json :=
  let cs := skipWs s.data
  match parseVal (cs.length + 1) cs with
  | some (j, rest) => if skipWs rest = [] then some j else none
  | none => none

/-! ## Round-trip: `Json.parse` recovers `Json.stringify` output -/

mutual
/-- Fuel needed by `parseVal` on the printed form of a value. -/
def sizeB : Json → Nat
  | .null => 1
  | .bool _ => 1
  | .num _ => 1
  | .str _ => 1
  | .arr [] => 1
  | .arr (x :: xs) => 1 + sizeL (x :: xs)
  | .obj [] => 1
  | .obj (f :: fs) => 1 + sizeM (f :: fs)

def sizeL : List Json → Nat
  | [] => 0
  | x :: xs => 1 + sizeB x + sizeL xs

def sizeM : List (String × Json) → Nat
  | [] => 0
  | f :: fs => 1 + sizeB f.2 + sizeM fs
end

theorem sizeB_pos (j : Json) : 1 ≤ sizeB j := by
  cases j with
  | arr xs => cases xs <;> simp [sizeB]
  | obj fs => cases fs <;> simp [sizeB]
  | _ => simp [sizeB]

theorem char_toNat_ofNat {n : Nat} (h : n < 55296) : (Char.ofNat n).toNat = n := by
  rw [Char.ofNat, dif_pos (Or.inl h)]
  simp [Char.ofNatAux, Char.toNat, UInt32.toNat, BitVec.toNat_ofNatLt]

theorem skipWs_not_ws {c : Char} (cs : List Char) (h : jsonIsWs c = false) :
    skipWs (c :: cs) = c :: cs := by
  simp [skipWs, h]

theorem hexVal_hexDigit : ∀ d < 16, hexVal (hexDigit d) = some d := by decide

/-- Parsing picks up exactly the character that `escapeChar` emitted. -/
theorem parseStringBody_escapeChar (c : Char) (t : List Char) (fuel : Nat) :
    parseStringBody (fuel + 1) (escapeChar c ++ t) =
      (parseStringBody fuel t).map (fun p => (c :: p.1, p.2)) := by
  by_cases h1 : c = '"'
  · subst h1; simp [escapeChar, parseStringBody]
  by_cases h2 : c = '\\'
  · subst h2; simp [escapeChar, parseStringBody]
  by_cases h3 : c = '\x08'
  · subst h3; simp [escapeChar, parseStringBody]
  by_cases h4 : c = '\x0c'
  · subst h4; simp [escapeChar, parseStringBody]
  by_cases h5 : c = '\n'
  · subst h5; simp [escapeChar, parseStringBody]
  by_cases h6 : c = '\r'
  · subst h6; simp [escapeChar, parseStringBody]
  by_cases h7 : c = '\t'
  · subst h7; simp [escapeChar, parseStringBody]
  by_cases h8 : c.toNat < 32
  · have hdiv : c.toNat / 16 < 16 := by omega
    have hmod : c.toNat % 16 < 16 := by omega
    have e1 : hexVal (hexDigit (c.toNat / 16)) = some (c.toNat / 16) :=
      hexVal_hexDigit _ hdiv
    have e2 : hexVal (hexDigit (c.toNat % 16)) = some (c.toNat % 16) :=
      hexVal_hexDigit _ hmod
    have hz : hexVal '0' = some 0 := by decide
    have hv : c.toNat / 16 * 16 + c.toNat % 16 = c.toNat := by omega
    rw [escapeChar, if_neg h1, if_neg h2, if_neg h3, if_neg h4, if_neg h5, if_neg h6,
      if_neg h7, if_pos h8]
    simp [parseStringBody, hex4, e1, e2, hz, hv, Char.ofNat_toNat]
  · rw [escapeChar, if_neg h1, if_neg h2, if_neg h3, if_neg h4, if_neg h5, if_neg h6,
      if_neg h7, if_neg h8]
    simp [parseStringBody, h1, h2, h8]

/-- A printed string literal body parses back to the original characters. -/
theorem parseStringBody_escapeList (l rest : List Char) :
    ∀ fuel, l.length < fuel →
      parseStringBody fuel (escapeList l ++ '"' :: rest) = some (l, rest) := by
  induction l with
  | nil =>
    intro fuel hf
    match fuel, hf with
    | f + 1, _ => simp [escapeList, parseStringBody]
  | cons c cs ih =>
    intro fuel hf
    match fuel, hf with
    | f + 1, hf =>
      rw [escapeList, List.append_assoc, parseStringBody_escapeChar,
        ih f (by simpa using Nat.lt_of_succ_lt_succ hf)]
      rfl

def headNotDigit : List Char → Prop
  | [] => True
  | c :: _ => c.isDigit = false

theorem ne_of_digit {c d : Char} (h : c.isDigit = true) (hd : d.isDigit = false) :
    c ≠ d := by
  intro e
  rw [e, hd] at h
  exact absurd h (by decide)

theorem isDigit_not_ws {c : Char} (h : c.isDigit = true) : jsonIsWs c = false := by
  have h1 : c ≠ ' ' := ne_of_digit h (by decide)
  have h2 : c ≠ '\t' := ne_of_digit h (by decide)
  have h3 : c ≠ '\n' := ne_of_digit h (by decide)
  have h4 : c ≠ '\r' := ne_of_digit h (by decide)
  simp [jsonIsWs, h1, h2, h3, h4]

theorem digit_char_spec :
    ∀ m < 10, (Char.ofNat (48 + m)).isDigit = true ∧ (Char.ofNat (48 + m)).toNat = 48 + m := by
  decide

theorem parseDigits_stop : ∀ rest acc, headNotDigit rest → parseDigits rest acc = (rest, acc)
  | [], acc, _ => by simp [parseDigits]
  | c :: cs, acc, h => by
    simp only [headNotDigit] at h
    simp [parseDigits, h]

theorem natDigitsAux_fuel :
    ∀ f g n, n < f → n < g → natDigitsAux f n = natDigitsAux g n := by
  intro f
  induction f with
  | zero => omega
  | succ f ih =>
    intro g n hf hg
    match g, hg with
    | g + 1, hg =>
      by_cases h : n < 10
      · simp [natDigitsAux, h]
      · have hd : n / 10 < n := Nat.div_lt_self (by omega) (by omega)
        simp only [natDigitsAux, if_neg h]
        rw [ih g (n / 10) (by omega) (by omega)]

theorem natChars_lt10 {n : Nat} (h : n < 10) : natChars n = [Char.ofNat (48 + n)] := by
  simp [natChars, natDigitsAux, h]

theorem natChars_ge10 {n : Nat} (h : 10 ≤ n) :
    natChars n = natChars (n / 10) ++ [Char.ofNat (48 + n % 10)] := by
  have hd : n / 10 < n := Nat.div_lt_self (by omega) (by omega)
  rw [natChars, natDigitsAux, if_neg (by omega)]
  rw [natDigitsAux_fuel n (n / 10 + 1) (n / 10) (by omega) (by omega)]
  rfl

theorem natChars_cons (n : Nat) : ∃ d ds, natChars n = d :: ds ∧ d.isDigit = true := by
  induction n using Nat.strong_induction_on with
  | _ n ih =>
    by_cases h : n < 10
    · exact ⟨_, _, natChars_lt10 h, (digit_char_spec n h).1⟩
    · obtain ⟨d, ds, hds, hdig⟩ := ih (n / 10) (Nat.div_lt_self (by omega) (by omega))
      exact ⟨d, ds ++ [Char.ofNat (48 + n % 10)], by rw [natChars_ge10 (by omega), hds]; rfl,
        hdig⟩

theorem parseDigits_natChars (n : Nat) : ∀ acc rest,
    parseDigits (natChars n ++ rest) acc =
      parseDigits rest (acc * 10 ^ (natChars n).length + n) := by
  induction n using Nat.strong_induction_on with
  | _ n ih =>
    intro acc rest
    by_cases h : n < 10
    · rw [natChars_lt10 h]
      obtain ⟨hdig, htn⟩ := digit_char_spec n h
      simp [parseDigits, hdig, htn]
    · rw [natChars_ge10 (by omega), List.append_assoc,
        ih (n / 10) (Nat.div_lt_self (by omega) (by omega)) acc _]
      obtain ⟨hdig, htn⟩ := digit_char_spec (n % 10) (by omega)
      simp only [List.cons_append, List.nil_append, parseDigits, hdig, if_pos, htn,
        List.length_append, List.length_cons, List.length_nil]
      congr 1
      have : 10 ^ ((natChars (n / 10)).length + (0 + 1)) =
          10 ^ (natChars (n / 10)).length * 10 := by
        rw [Nat.zero_add, Nat.pow_succ]
      rw [this]
      have hmod : 48 + n % 10 - 48 = n % 10 := by omega
      rw [hmod]
      have hnd : n / 10 * 10 + n % 10 = n := by omega
      ring_nf
      omega

theorem parseIntNum_intChars (n : Int) (rest : List Char) (h : headNotDigit rest) :
    parseIntNum (intChars n ++ rest) = some (n, rest) := by
  by_cases hn : n < 0
  · rw [intChars, if_pos hn]
    obtain ⟨d, ds, hds, hdig⟩ := natChars_cons n.natAbs
    have hne : d ≠ '-' := ne_of_digit hdig (by decide)
    simp only [List.cons_append, parseIntNum, if_pos rfl, hds]
    simp only [List.cons_append, hdig, if_pos]
    have := parseDigits_natChars n.natAbs 0 rest
    rw [hds] at this
    simp only [List.cons_append] at this
    rw [this, parseDigits_stop rest _ h]
    simp only [Nat.zero_mul, Nat.zero_add, Option.some.injEq, Prod.mk.injEq, and_true]
    omega
  · rw [intChars, if_neg hn]
    obtain ⟨d, ds, hds, hdig⟩ := natChars_cons n.natAbs
    have hne : d ≠ '-' := ne_of_digit hdig (by decide)
    rw [hds]
    simp only [List.cons_append, parseIntNum, if_neg hne, hdig, if_pos]
    have := parseDigits_natChars n.natAbs 0 rest
    rw [hds] at this
    simp only [List.cons_append] at this
    rw [this, parseDigits_stop rest _ h]
    simp only [Nat.zero_mul, Nat.zero_add, Option.some.injEq, Prod.mk.injEq, and_true]
    omega

theorem escapeChar_length (c : Char) : 1 ≤ (escapeChar c).length := by
  rw [escapeChar]
  split
  · simp
  all_goals split
  all_goals first
  | simp
  | (split
     all_goals first
     | simp
     | (split
        all_goals first
        | simp
        | (split
           all_goals first
           | simp
           | (split
              all_goals first
              | simp
              | (split
                 all_goals first
                 | simp
                 | (split <;> simp))))))

theorem escapeList_length (l : List Char) : l.length ≤ (escapeList l).length := by
  induction l with
  | nil => simp [escapeList]
  | cons c cs ih =>
    rw [escapeList, List.length_append, List.length_cons]
    have := escapeChar_length c
    omega

theorem intChars_cons (n : Int) :
    ∃ c t, intChars n = c :: t ∧ (c = '-' ∨ c.isDigit = true) := by
  by_cases hn : n < 0
  · exact ⟨'-', natChars n.natAbs, by rw [intChars, if_pos hn], Or.inl rfl⟩
  · obtain ⟨d, ds, hds, hdig⟩ := natChars_cons n.natAbs
    exact ⟨d, ds, by rw [intChars, if_neg hn, hds], Or.inr hdig⟩

theorem stringify_head (j : Json) :
    ∃ c t, stringifyChars j = c :: t ∧ jsonIsWs c = false ∧ c ≠ ']' := by
  cases j with
  | null => exact ⟨'n', _, rfl, by decide, by decide⟩
  | bool b =>
    cases b
    · exact ⟨'f', _, rfl, by decide, by decide⟩
    · exact ⟨'t', _, rfl, by decide, by decide⟩
  | num n =>
    obtain ⟨c, t, hct, hc⟩ := intChars_cons n
    refine ⟨c, t, by rw [stringifyChars, hct], ?_, ?_⟩
    · rcases hc with hc | hc
      · subst hc; decide
      · exact isDigit_not_ws hc
    · rcases hc with hc | hc
      · subst hc; decide
      · exact ne_of_digit hc (by decide)
  | str s => exact ⟨'"', _, by rw [stringifyChars, escapeString], by decide, by decide⟩
  | arr xs => exact ⟨'[', _, rfl, by decide, by decide⟩
  | obj fs => exact ⟨'\x7b', _, rfl, by decide, by decide⟩

theorem stringifyElems_head (x : Json) (xs : List Json) :
    ∃ c t, stringifyElems (x :: xs) = c :: t ∧ jsonIsWs c = false ∧ c ≠ ']' := by
  obtain ⟨c, t, he, hw, hne⟩ := stringify_head x
  cases xs with
  | nil => exact ⟨c, t, by rw [stringifyElems, he], hw, hne⟩
  | cons y ys =>
    exact ⟨c, t ++ ',' :: stringifyElems (y :: ys), by rw [stringifyElems, he]; rfl, hw, hne⟩

theorem stringifyFields_head (k : String) (v : Json) (fs : List (String × Json)) :
    ∃ t, stringifyFields ((k, v) :: fs) = '"' :: t := by
  cases fs with
  | nil => exact ⟨_, by rw [stringifyFields, escapeString]; rfl⟩
  | cons g gs => exact ⟨_, by rw [stringifyFields, escapeString]; rfl⟩

/-- Fuel-specialized form matching exactly the fuel expression used at the
parser's call sites. -/
theorem parseStringBody_escapeList_auto (l X : List Char) :
    parseStringBody ((escapeList l ++ '"' :: X).length + 1) (escapeList l ++ '"' :: X) =
      some (l, X) :=
  parseStringBody_escapeList l X _
    (by have := escapeList_length l; simp only [List.length_append, List.length_cons]; omega)

/-- Core induction: the parser consumes exactly the printed form of any
value, list of array elements, or list of object members. -/
theorem parse_stringify_main : ∀ fuel : Nat,
    (∀ j rest, sizeB j ≤ fuel → headNotDigit rest →
      parseVal fuel (stringifyChars j ++ rest) = some (j, rest)) ∧
    (∀ x xs rest, sizeL (x :: xs) ≤ fuel →
      parseElems fuel (stringifyElems (x :: xs) ++ ']' :: rest) = some (x :: xs, rest)) ∧
    (∀ f fs rest, sizeM (f :: fs) ≤ fuel →
      parseMembers fuel (stringifyFields (f :: fs) ++ '\x7d' :: rest) =
        some (f :: fs, rest)) := by
  intro fuel
  induction fuel with
  | zero =>
    refine ⟨fun j _ hs _ => absurd hs (by have := sizeB_pos j; omega),
      fun x xs _ hs => absurd hs (by rw [sizeL]; omega),
      fun f fs _ hs => absurd hs (by rw [sizeM]; omega)⟩
  | succ fuel ih =>
    obtain ⟨ihV, ihE, ihM⟩ := ih
    refine ⟨?_, ?_, ?_⟩
    · intro j rest hs hnd
      cases j with
      | null => simp [stringifyChars, parseVal, expectLit]
      | bool b => cases b <;> simp [stringifyChars, parseVal, expectLit]
      | num n =>
        obtain ⟨c, t, hct, hc⟩ := intChars_cons n
        have hpi := parseIntNum_intChars n rest hnd
        have hkey : parseIntNum (c :: (t ++ rest)) = some (n, rest) := by
          rw [← List.cons_append, ← hct]; exact hpi
        rcases hc with hc | hc
        · subst hc
          rw [stringifyChars, hct, List.cons_append]
          simp [parseVal, hkey]
        · have hne1 : c ≠ 'n' := ne_of_digit hc (by decide)
          have hne2 : c ≠ 't' := ne_of_digit hc (by decide)
          have hne3 : c ≠ 'f' := ne_of_digit hc (by decide)
          have hne4 : c ≠ '"' := ne_of_digit hc (by decide)
          have hne5 : c ≠ '[' := ne_of_digit hc (by decide)
          have hne6 : c ≠ '\x7b' := ne_of_digit hc (by decide)
          rw [stringifyChars, hct, List.cons_append]
          simp [parseVal, hne1, hne2, hne3, hne4, hne5, hne6, hkey]
      | str s =>
        obtain ⟨sl⟩ := s
        rw [stringifyChars, escapeString]
        simp only [List.cons_append, List.append_assoc, List.singleton_append,
          List.nil_append]
        simp only [parseVal, parseStringBody_escapeList_auto]
        simp
      | arr xs =>
        cases xs with
        | nil => simp [stringifyChars, stringifyElems, parseVal, skipWs, jsonIsWs]
        | cons x xs =>
          rw [sizeB] at hs
          obtain ⟨c, t, he, hw, hne⟩ := stringifyElems_head x xs
          have hE := ihE x xs rest (by omega)
          have hcons : stringifyElems (x :: xs) ++ ']' :: rest = c :: (t ++ ']' :: rest) := by
            rw [he]; rfl
          rw [stringifyChars]
          simp only [List.cons_append, List.append_assoc, List.singleton_append,
            List.nil_append]
          rw [hcons]
          simp only [parseVal]
          rw [skipWs_not_ws _ hw]
          simp only [if_neg hne, ← hcons, hE]
          simp
      | obj fs =>
        cases fs with
        | nil => simp [stringifyChars, stringifyFields, parseVal, skipWs, jsonIsWs]
        | cons f fs =>
          rw [sizeB] at hs
          obtain ⟨k, v⟩ := f
          obtain ⟨t, hf⟩ := stringifyFields_head k v fs
          have hM := ihM (k, v) fs rest (by omega)
          have hcons : stringifyFields ((k, v) :: fs) ++ '\x7d' :: rest =
              '"' :: (t ++ '\x7d' :: rest) := by
            rw [hf]; rfl
          rw [stringifyChars]
          simp only [List.cons_append, List.append_assoc, List.singleton_append,
            List.nil_append]
          rw [hcons]
          simp only [parseVal]
          rw [skipWs_not_ws _ (by decide)]
          simp only [show ('"' : Char) ≠ '\x7d' from by decide, if_neg, ← hcons, hM]
          simp
    · intro x xs rest hs
      rw [sizeL] at hs
      cases xs with
      | nil =>
        have hV := ihV x (']' :: rest) (by omega) (by simp [headNotDigit])
        simp only [stringifyElems]
        simp [parseElems, hV, skipWs, jsonIsWs]
      | cons y ys =>
        have h2 : 1 ≤ sizeL (y :: ys) := by rw [sizeL]; omega
        have h1 : 1 ≤ sizeB x := sizeB_pos x
        obtain ⟨c, t, he, hw, hne⟩ := stringifyElems_head y ys
        have hV := ihV x (',' :: (stringifyElems (y :: ys) ++ ']' :: rest)) (by omega)
          (by simp [headNotDigit])
        have hE := ihE y ys rest (by omega)
        have hcons : stringifyElems (y :: ys) ++ ']' :: rest = c :: (t ++ ']' :: rest) := by
          rw [he]; rfl
        simp only [stringifyElems, List.append_assoc, List.cons_append]
        simp only [parseElems]
        rw [hV]
        simp only [skipWs_not_ws _ (by decide : jsonIsWs ',' = false)]
        simp only [reduceIte]
        rw [hcons, skipWs_not_ws _ hw, ← hcons, hE]
        rfl
    · intro f fs rest hs
      obtain ⟨k, v⟩ := f
      obtain ⟨kl⟩ := k
      have hsm : 1 + sizeB v + sizeM fs ≤ fuel + 1 := by rw [sizeM] at hs; exact hs
      obtain ⟨c0, t0, hv0, hw0, _⟩ := stringify_head v
      cases fs with
      | nil =>
        have hY : ∀ z : List Char, stringifyChars v ++ z = c0 :: (t0 ++ z) := by
          intro z; rw [hv0]; rfl
        have hV := ihV v ('\x7d' :: rest) (by omega) (by simp [headNotDigit])
        simp only [stringifyFields, escapeString, List.cons_append, List.append_assoc,
          List.singleton_append, List.nil_append]
        simp only [parseMembers, parseStringBody_escapeList_auto]
        simp only [skipWs_not_ws _ (by decide : jsonIsWs ':' = false), reduceIte]
        rw [hY, skipWs_not_ws _ hw0, ← hY, hV]
        simp only [skipWs_not_ws _ (by decide : jsonIsWs '\x7d' = false)]
        simp
      | cons g gs =>
        obtain ⟨k2, v2⟩ := g
        obtain ⟨t2, hg⟩ := stringifyFields_head k2 v2 gs
        have hZ : stringifyFields ((k2, v2) :: gs) ++ '\x7d' :: rest =
            '"' :: (t2 ++ '\x7d' :: rest) := by rw [hg]; rfl
        have hY : ∀ z : List Char, stringifyChars v ++ z = c0 :: (t0 ++ z) := by
          intro z; rw [hv0]; rfl
        have hV := ihV v
          (',' :: (stringifyFields ((k2, v2) :: gs) ++ '\x7d' :: rest)) (by omega)
          (by simp [headNotDigit])
        have hM := ihM (k2, v2) gs rest
          (by rw [sizeM]; rw [sizeM] at hsm; have := sizeB_pos v; omega)
        simp only [stringifyFields, escapeString, List.cons_append, List.append_assoc,
          List.singleton_append, List.nil_append]
        simp only [parseMembers, parseStringBody_escapeList_auto]
        simp only [skipWs_not_ws _ (by decide : jsonIsWs ':' = false), reduceIte]
        rw [hY, skipWs_not_ws _ hw0, ← hY, hV]
        simp only [skipWs_not_ws _ (by decide : jsonIsWs ',' = false), reduceIte]
        rw [hZ, skipWs_not_ws _ (by decide), ← hZ, hM]
        rfl

mutual
def sizeB_le : ∀ j : Json, sizeB j ≤ (stringifyChars j).length
  | .null => by simp [sizeB, stringifyChars]
  | .bool b => by cases b <;> simp [sizeB, stringifyChars]
  | .num n => by
    obtain ⟨c, t, hct, _⟩ := intChars_cons n
    simp [sizeB, stringifyChars, hct]
  | .str s => by simp [sizeB, stringifyChars, escapeString]
  | .arr xs => by
    have h := sizeL_le xs
    cases xs with
    | nil => simp [sizeB, stringifyChars, stringifyElems]
    | cons x xs =>
      simp only [sizeB, stringifyChars, List.length_cons, List.length_append] at h ⊢
      omega
  | .obj fs => by
    have h := sizeM_le fs
    cases fs with
    | nil => simp [sizeB, stringifyChars, stringifyFields]
    | cons f fs =>
      simp only [sizeB, stringifyChars, List.length_cons, List.length_append] at h ⊢
      omega

def sizeL_le : ∀ xs : List Json, sizeL xs ≤ (stringifyElems xs).length + 1
  | [] => by simp [sizeL, stringifyElems]
  | [x] => by
    have h := sizeB_le x
    simp only [sizeL, stringifyElems]
    omega
  | x :: y :: ys => by
    have h1 := sizeB_le x
    have h2 := sizeL_le (y :: ys)
    simp only [sizeL, stringifyElems, List.length_append, List.length_cons] at h2 ⊢
    omega

def sizeM_le : ∀ fs : List (String × Json), sizeM fs ≤ (stringifyFields fs).length + 1
  | [] => by simp [sizeM, stringifyFields]
  | [(k, v)] => by
    have h := sizeB_le v
    simp only [sizeM, stringifyFields, List.length_append, List.length_cons]
    omega
  | (k, v) :: g :: gs => by
    have h1 := sizeB_le v
    have h2 := sizeM_le (g :: gs)
    simp only [sizeM, stringifyFields, List.length_append, List.length_cons] at h2 ⊢
    omega
end

/-- `JSON.parse` inverts `JSON.stringify`: the engine's persisted snapshots
and wire frames decode to exactly the value that was encoded. -/
theorem parse_stringify (j : Json) : Json.parse (Json.stringify j) = some j := by
  obtain ⟨c, t, hct, hw, _⟩ := stringify_head j
  have hskip : skipWs (stringifyChars j) = stringifyChars j := by
    rw [hct]; exact skipWs_not_ws _ hw
  have hmain := (parse_stringify_main ((stringifyChars j).length + 1)).1 j []
    (by have := sizeB_le j; omega) trivial
  rw [List.append_nil] at hmain
  rw [Json.parse]
  show (match parseVal ((skipWs (Json.stringify j).data).length + 1)
      (skipWs (Json.stringify j).data) with
    | some (j, rest) => if skipWs rest = [] then some j else none
    | none => none) = some j
  have hdata : (Json.stringify j).data = stringifyChars j := rfl
  rw [hdata, hskip, hmain]
  simp [skipWs]

/-! ## SSE frame parser (`parseSSELine`)

`parseSSELine` returns either `null` (modelled `none`) or a JavaScript
object; the streaming loop only ever reads the fields `chunk`, `done`,
`error`, `suggestedResponses` and `productSuggestions` off that object, and
skips falsy return values (`if (!parsed) continue`), so the returned object
is modelled by those five fields and a falsy `return data` value is
identified with the `null` return. -/

structure SSEEvent where
  chunk : Option Json
  done : Option Json
  error : Option Json
  suggestedResponses : Option Json
  productSuggestions : Option Json
deriving Repr

def noFields : SSEEvent := ⟨none, none, none, none, none⟩

def truthyOpt : Option Json → Bool
  | some j => jsTruthy j
  | none => false

/-- The observable fields of a `data:` payload returned verbatim
(`return data`). -/
def eventOfJson (j : Json) : SSEEvent :=
  { chunk := jGet j "chunk"
    done := jGet j "done"
    error := jGet j "error"
    suggestedResponses := jGet j "suggestedResponses"
    productSuggestions := jGet j "productSuggestions" }

/-- Tail of a string after dropping `n` characters (`String.prototype.slice`
with a start index, on inputs whose length is at least `n`). -/
def strDrop (s : String) (n : Nat) : String :=
  ⟨s.data.drop n⟩

/-- The `data:` branch after a successful `JSON.parse`: structured
suggestion frames are recognized first, anything else is returned verbatim.
Accessing `.type` on a `null` payload throws (`Except.error`), which the
caller's `catch` turns into a raw-chunk fallback. -/
def dataBranch (data : Json) : Except Unit (Option SSEEvent) :=
  match jsGetField data "type" with
  | .error e => .error e
  | .ok ty =>
    match ty with
    | some (.str t) =>
      if t = "suggested_responses" then
        match jGet data "suggested_responses" with
        | some (.arr xs) =>
          .ok (some { noFields with suggestedResponses := some (.arr xs) })
        | _ => .ok (if jsTruthy data then some (eventOfJson data) else none)
      else if t = "product_suggestions" then
        match jGet data "products" with
        | some (.arr xs) =>
          .ok (some { noFields with productSuggestions := some (.arr xs) })
        | _ => .ok (if jsTruthy data then some (eventOfJson data) else none)
      else .ok (if jsTruthy data then some (eventOfJson data) else none)
    | _ => .ok (if jsTruthy data then some (eventOfJson data) else none)

/-- One line of the response stream to at most one event. -/
def parseSSELine (line : String) : Option SSEEvent :=
  if jsStartsWith line "data: " then
    match Json.parse (strDrop line 6) with
    | some data =>
      match dataBranch data with
      | .ok ev => ev
      | .error _ => some { noFields with chunk := some (.str (strDrop line 6)) }
    | none => some { noFields with chunk := some (.str (strDrop line 6)) }
  else if jsStartsWith line "0:" then
    match Json.parse (strDrop line 2) with
    | some content => some { noFields with chunk := some content }
    | none => some { noFields with chunk := some (.str (strDrop line 2)) }
  else if jsStartsWith line "e:" || jsStartsWith line "d:" then
    match Json.parse (strDrop line 2) with
    | some data =>
      match jsGetField data "finishReason" with
      | .error _ => none
      | .ok fr =>
        if truthyOpt fr || jsStartsWith line "d:" then
          some { noFields with done := some (.bool true) }
        else none
    | none => none
  else none

/-! ## Inline-payload extractors
(`parseSuggestedResponses` / `parseProductSuggestions`)

The two source functions are textually identical up to the type tag and the
array field name, so they share one body here.  Their fixed regular
expressions are modelled by direct scanners with the same semantics: the
lazy gaps take the shortest expansion (first occurrence), the whitespace
after `"type"` / `:` and inside the fence is deterministic because a
non-whitespace literal follows, and on failure the scan restarts one
character to the right (leftmost match). -/

/-- `"type"\s*:\s*"tag"` anchored at the head of the input. -/
def matchTypeTag (tag : String) (cs : List Char) : Option (List Char) :=
  match expectLit cs ('"' :: ("type".data ++ ['"'])) with
  | none => none
  | some r1 =>
    match dropWhileSpace r1 with
    | ':' :: r2 => expectLit (dropWhileSpace r2) ('"' :: (tag.data ++ ['"']))
    | _ => none

/-- Shortest expansion of the first lazy gap: the input after the first
position where the type tag matches. -/
def findTypeTag (tag : String) : List Char → Option (List Char)
  | [] => none
  | c :: cs =>
    match matchTypeTag tag (c :: cs) with
    | some rest => some rest
    | none => findTypeTag tag cs

/-- Shortest expansion of the second lazy gap: the input after the first
closing brace. -/
def findClose : List Char → Option (List Char)
  | [] => none
  | c :: cs => if c = '\x7d' then some cs else findClose cs

/-- The bare pattern anchored at the head of the input; returns the matched
substring and the input after it. -/
def matchPlainAt (tag : String) (cs : List Char) : Option (List Char × List Char) :=
  match cs with
  | '\x7b' :: r1 =>
    match findTypeTag tag r1 with
    | some r2 =>
      match findClose r2 with
      | some rest => some (cs.take (cs.length - rest.length), rest)
      | none => none
    | none => none
  | _ => none

/-- All `/g` matches of the bare pattern (non-overlapping, resuming after
each match), as `String.prototype.match` returns them. -/
def plainMatchesAux (tag : String) : Nat → List Char → List (List Char)
  | 0, _ => []
  | _ + 1, [] => []
  | fuel + 1, c :: cs =>
    match matchPlainAt tag (c :: cs) with
    | some (m, rest) => m :: plainMatchesAux tag fuel rest
    | none => plainMatchesAux tag fuel cs

def plainMatches (tag : String) (cs : List Char) : List (List Char) :=
  plainMatchesAux tag (cs.length + 1) cs

/-- First closing brace whose following `\s*` run ends in a closing triple
backtick; returns the input after the brace and after the whole fence. -/
def findCloseFence : List Char → Option (List Char × List Char)
  | [] => none
  | c :: cs =>
    if c = '\x7d' then
      match expectLit (dropWhileSpace cs) ("```".data) with
      | some rest => some (cs, rest)
      | none => findCloseFence cs
    else findCloseFence cs

/-- The fenced pattern anchored at the head of the input; returns the whole
match and the captured group (the brace-delimited JSON). -/
def matchFencedAt (tag : String) (cs : List Char) : Option (List Char × List Char) :=
  match expectLit cs ("```json".data) with
  | none => none
  | some r1 =>
    match dropWhileSpace r1 with
    | '\x7b' :: r2 =>
      match findTypeTag tag r2 with
      | some r3 =>
        match findCloseFence r3 with
        | some (afterBrace, afterFence) =>
          some (cs.take (cs.length - afterFence.length),
            ('\x7b' :: r2).take (('\x7b' :: r2).length - afterBrace.length))
        | none => none
      | none => none
    | _ => none

/-- Leftmost match of the fenced pattern (`RegExp.prototype.exec`). -/
def findFenced (tag : String) : List Char → Option (List Char × List Char)
  | [] => none
  | c :: cs =>
    match matchFencedAt tag (c :: cs) with
    | some r => some r
    | none => findFenced tag cs

/-- `String.prototype.replace` with a plain-string search value and an empty
replacement: removes the first occurrence. -/
def replaceFirstL (target : List Char) : List Char → List Char
  | [] => []
  | c :: cs =>
    if startsWithL (c :: cs) target then List.drop target.length (c :: cs)
    else c :: replaceFirstL target cs

def replaceFirstEmpty (s target : String) : String :=
  ⟨replaceFirstL target.data s.data⟩

/-- `parsed.type === tag && Array.isArray(parsed[field])`; the parsed value
of a regex match always starts with a brace, so a successful parse is an
object and property access cannot throw. -/
def isTaggedWithArray (parsed : Json) (tyTag fld : String) : Bool :=
  match parsed with
  | .obj fs =>
    (match jLookup fs "type" with
     | some (.str t) => t = tyTag
     | _ => false) &&
    (match jLookup fs fld with
     | some (.arr _) => true
     | _ => false)
  | _ => false

def arrField (parsed : Json) (fld : String) : List Json :=
  match parsed with
  | .obj fs =>
    match jLookup fs fld with
    | some (.arr xs) => xs
    | _ => []
  | _ => []

/-- The loop over bare matches: the first one that parses and validates
wins; parse failures are swallowed and scanning continues. -/
def plainLoop (tyTag fld : String) : List (List Char) → String → Option (String × List Json)
  | [], _ => none
  | m :: ms, content =>
    match Json.parse ⟨m⟩ with
    | some parsed =>
      if isTaggedWithArray parsed tyTag fld then
        some (jsTrim (replaceFirstEmpty content ⟨m⟩), arrField parsed fld)
      else plainLoop tyTag fld ms content
    | none => plainLoop tyTag fld ms content

/-- Common body of the two extractors.  The fenced form is tried first; the
bare scan additionally runs whenever the suggestion list is still empty
(also when a fenced match parsed to an empty array), always matching and
replacing against the original content, as the source does. -/
def extractTagged (tyTag fld : String) (content : String) : String × List Json :=
  let fenced :=
    match findFenced tyTag content.data with
    | some (m0, g) =>
      match Json.parse ⟨g⟩ with
      | some parsed =>
        if isTaggedWithArray parsed tyTag fld then
          some (jsTrim (replaceFirstEmpty content ⟨m0⟩), arrField parsed fld)
        else none
      | none => none
    | none => none
  match fenced with
  | some (clean, items) =>
    if items.length == 0 then
      match plainLoop tyTag fld (plainMatches tyTag content.data) content with
      | some r => r
      | none => (clean, items)
    else (clean, items)
  | none =>
    match plainLoop tyTag fld (plainMatches tyTag content.data) content with
    | some r => r
    | none => (content, [])

/-- Extractor for `suggested_responses`: returns the cleaned content and the
extracted replies. -/
def parseSuggestedResponses (content : String) : String × List Json :=
  extractTagged "suggested_responses" "suggested_responses" content

/-- Extractor for `product_suggestions`: returns the cleaned content and the
extracted product references. -/
def parseProductSuggestions (content : String) : String × List Json :=
  extractTagged "product_suggestions" "products" content

/-! ## Storage layer

`localStorage` / `sessionStorage` are string key-value stores, modelled as
association lists with last-write-wins `setItem`.  JavaScript `Date`
instants are modelled opaquely by their serialized string form: creating a
message stamps it with a string, `JSON.stringify` embeds that string, and
`new Date(t)` revives the same instant (identity here).  A falsy (empty)
serialized timestamp is dropped on revival, like the source's
`m.timestamp ? new Date(m.timestamp) : undefined`. -/

def getKey (st : List (String × String)) (k : String) : Option String :=
  List.lookup k st

def setKey (st : List (String × String)) (k v : String) : List (String × String) :=
  (k, v) :: st.filter (fun p => p.1 ≠ k)

def removeKey (st : List (String × String)) (k : String) : List (String × String) :=
  st.filter (fun p => p.1 ≠ k)

structure ChatMessage where
  id : String
  role : String
  content : String
  timestamp : Option String
deriving Repr, DecidableEq

structure StoredChatData where
  chatSessionId : String
  messages : List ChatMessage
  suggestedResponses : Json
  productSuggestions : Json
deriving Repr

structure StorageKeys where
  sessionId : String
  chatSessionId : String
  messages : String
deriving Repr, DecidableEq

def getStorageKeys (p : String) : StorageKeys :=
  ⟨p ++ "_session_id", p ++ "_chat_session_id", p ++ "_chat_messages"⟩

/-- `JSON.stringify` of one message object (an `undefined` timestamp field
is omitted from the serialized object). -/
def encodeMessage (m : ChatMessage) : Json :=
  .obj ([("id", .str m.id), ("role", .str m.role), ("content", .str m.content)] ++
    (match m.timestamp with
     | some t => [("timestamp", .str t)]
     | none => []))

def encodeStored (d : StoredChatData) : Json :=
  .obj [("chatSessionId", .str d.chatSessionId),
        ("messages", .arr (d.messages.map encodeMessage)),
        ("suggestedResponses", d.suggestedResponses),
        ("productSuggestions", d.productSuggestions)]

/-- Revival of one stored message, including the timestamp conversion.  The
source casts without validating; the model reads the record fields
structurally (a record whose shape the source could only have produced by
writing a snapshot). -/
def decodeMessage : Json → Option ChatMessage
  | .obj fs =>
    match jLookup fs "id", jLookup fs "role", jLookup fs "content" with
    | some (.str i), some (.str r), some (.str c) =>
      match jLookup fs "timestamp" with
      | some (.str t) => some ⟨i, r, c, if t = "" then none else some t⟩
      | none => some ⟨i, r, c, none⟩
      | some _ => none
    | _, _, _ => none
  | _ => none

def decodeStored (j : Json) : Option StoredChatData :=
  match j with
  | .obj fs =>
    match jLookup fs "chatSessionId", jLookup fs "messages" with
    | some (.str cid), some (.arr ms) =>
      match ms.mapM decodeMessage with
      | some msgs =>
        some ⟨cid, msgs,
          (jLookup fs "suggestedResponses").getD .null,
          (jLookup fs "productSuggestions").getD .null⟩
      | none => none
    | _, _ => none
  | _ => none

/-- `loadCachedChat`: read, `JSON.parse`, revive timestamps; any failure
(no record, malformed JSON, malformed record) yields `null`. -/
def loadCachedChat (store : List (String × String)) (storageKey : String) :
    Option StoredChatData :=
  match getKey store storageKey with
  | none => none
  | some stored =>
    match Json.parse stored with
    | some j => decodeStored j
    | none => none

/-- `saveChatToStorage`: one atomic overwrite of the whole record. -/
def saveChatToStorage (store : List (String × String)) (storageKey : String)
    (chatSessionId : String) (messages : List ChatMessage)
    (suggestedResponses productSuggestions : Json) : List (String × String) :=
  setKey store storageKey
    (Json.stringify (encodeStored ⟨chatSessionId, messages, suggestedResponses,
      productSuggestions⟩))

def clearChatStorage (store : List (String × String)) (storageKey : String) :
    List (String × String) :=
  removeKey store storageKey

/-- The cache read as composed at engine initialization (`useChat` mount):
a stored snapshot counts only when its conversation id matches the live
one. -/
def loadForSession (store : List (String × String)) (storageKey : String)
    (chatSessionId : String) : Option StoredChatData :=
  match loadCachedChat store storageKey with
  | some cached => if cached.chatSessionId = chatSessionId then some cached else none
  | none => none

/-! ## Chat session engine (`useChat`)

The hook's state and operations, with the browser's impure inputs passed
explicitly: `uid` / `aid` are the generated message ids, `ts` the serialized
current instant, and the HTTP interaction is a `FetchResult` value.  The
snapshot-saving `useEffect` is applied after each batch of state updates
(React batches the updates inside the async callback); it only writes when a
conversation id exists and the message list is non-empty. -/

inductive ErrorType where
  | api
  | network
  | unknown
deriving Repr, DecidableEq

structure ErrorEvent where
  error : String
  errorType : ErrorType
deriving Repr, DecidableEq

structure JsError where
  name : String
  message : String
deriving Repr, DecidableEq

structure EngineState where
  messages : List ChatMessage
  isLoading : Bool
  isStreaming : Bool
  streamingMessage : String
  error : Option String
  suggestedResponses : Json
  productSuggestions : Json
  sessionId : String
  chatSessionId : String
  keyBase : String
  localStore : List (String × String)
  sessionStore : List (String × String)
  abortLive : Bool
deriving Repr

/-- The snapshot-saving `useEffect` (`use-chat.ts` lines 326-330). -/
def persistEffect (s : EngineState) : EngineState :=
  if s.chatSessionId ≠ "" ∧ 0 < s.messages.length then
    { s with
      localStore := (saveChatToStorage s.localStore (getStorageKeys s.keyBase).messages
        s.chatSessionId s.messages s.suggestedResponses s.productSuggestions) }
  else s

structure StreamAcc where
  fullResponse : String
  receivedSuggestedResponses : Json
  receivedProductSuggestions : Json
deriving Repr

def initAcc : StreamAcc := ⟨"", .arr [], .arr []⟩

/-- The three field applications shared by the line loop and the
trailing-buffer processing (`if (parsed.chunk) ...` etc.). -/
def applyChunkFields (acc : StreamAcc) (p : SSEEvent) : StreamAcc :=
  let acc := if truthyOpt p.chunk then
      { acc with fullResponse := acc.fullResponse ++ jsToString (p.chunk.getD .null) }
    else acc
  let acc := if truthyOpt p.suggestedResponses then
      { acc with receivedSuggestedResponses := p.suggestedResponses.getD .null }
    else acc
  if truthyOpt p.productSuggestions then
    { acc with receivedProductSuggestions := p.productSuggestions.getD .null }
  else acc

/-- The `for (const line of lines)` body: blank and unparsed lines are
skipped, an `error` field throws, `done` breaks out of this batch of
lines. -/
def processLines : List String → StreamAcc → Except JsError StreamAcc
  | [], acc => .ok acc
  | line :: rest, acc =>
    let t := jsTrim line
    if t = "" then processLines rest acc
    else
      match parseSSELine t with
      | none => processLines rest acc
      | some p =>
        if truthyOpt p.error then
          .error ⟨"Error", jsToString (p.error.getD .null)⟩
        else
          let acc := applyChunkFields acc p
          if truthyOpt p.done then .ok acc
          else processLines rest acc

/-- The `while (true)` read loop: each read chunk extends the buffer, the
buffer is split at line feeds, the last (possibly incomplete) line stays in
the buffer, and the complete lines are processed.  A `done` break only ends
the current batch; subsequent reads are still consumed. -/
def readLoop : List String → String → StreamAcc → Except JsError (String × StreamAcc)
  | [], buffer, acc => .ok (buffer, acc)
  | chunk :: restReads, buffer, acc =>
    let lines := splitNl (buffer ++ chunk).data
    let newBuffer : String := ⟨(lines.getLast?).getD []⟩
    let toProcess := lines.dropLast.map (fun l => (⟨l⟩ : String))
    match processLines toProcess acc with
    | .ok acc2 => readLoop restReads newBuffer acc2
    | .error e => .error e

/-- Processing of the final buffer remainder: only chunk and suggestion
fields are applied (no error or done handling). -/
def processRemainder (buffer : String) (acc : StreamAcc) : StreamAcc :=
  if jsTrim buffer = "" then acc
  else
    match parseSSELine (jsTrim buffer) with
    | some p => applyChunkFields acc p
    | none => acc

/-- The whole body-consumption phase of `sendMessage` over the list of read
chunks. -/
def runStream (reads : List String) : Except JsError StreamAcc :=
  match readLoop reads "" initAcc with
  | .ok (buffer, acc) => .ok (processRemainder buffer acc)
  | .error e => .error e

/-- `.length === 0` / `.length > 0` on the received suggestion values
(arrays in every reachable flow; string and object lengths follow
JavaScript, anything else has an `undefined` length and compares false). -/
def jsLenVal (j : Json) : Option Json :=
  match j with
  | .arr xs => some (.num xs.length)
  | .str s => some (.num s.length)
  | .obj fs => jLookup fs "length"
  | _ => none

def lenEqZero (j : Json) : Bool :=
  match jsLenVal j with
  | some (.num n) => n = 0
  | _ => false

def lenGtZero (j : Json) : Bool :=
  match jsLenVal j with
  | some (.num n) => 0 < n
  | _ => false

/-- The commit phase (`use-chat.ts` lines 489-538): nothing is committed for
an empty accumulated text; otherwise each suggestion category falls back to
its inline extractor exactly when SSE delivered nothing for it, the assistant
message carries the cleaned content, and only non-empty final suggestion
lists are written to state. -/
def commitStream (aid ts : String) (s : EngineState) (acc : StreamAcc) :
    EngineState × Option ChatMessage :=
  if acc.fullResponse = "" then (s, none)
  else
    let r1 :=
      if lenEqZero acc.receivedSuggestedResponses then
        let r := parseSuggestedResponses acc.fullResponse
        (r.1, Json.arr r.2)
      else (acc.fullResponse, acc.receivedSuggestedResponses)
    let r2 :=
      if lenEqZero acc.receivedProductSuggestions then
        let r := parseProductSuggestions r1.1
        (r.1, Json.arr r.2)
      else (r1.1, acc.receivedProductSuggestions)
    let assistantMessage : ChatMessage := ⟨aid, "assistant", r2.1, some ts⟩
    let s := { s with messages := s.messages ++ [assistantMessage] }
    let s := if lenGtZero r1.2 then { s with suggestedResponses := r1.2 } else s
    let s := if lenGtZero r2.2 then { s with productSuggestions := r2.2 } else s
    (persistEffect s, some assistantMessage)

structure HttpResponse where
  ok : Bool
  status : Nat
  body : Option (List String)
deriving Repr

/-- The outcome of `fetch`: a response, or a rejection (network `TypeError`,
or `AbortError` when the request was aborted). -/
inductive FetchResult where
  | success (resp : HttpResponse)
  | failure (err : JsError)
deriving Repr

def typeErrorNullMsg : String :=
  "Cannot read properties of null (reading 'detail')"

/-- The non-ok branch: `await response.json().catch(() => ({}))`, then
`errorData.detail || 'HTTP ' + status`. -/
def httpErrorMessage (resp : HttpResponse) : Except JsError String :=
  let bodyText := String.join ((resp.body).getD [])
  let errorData := (Json.parse bodyText).getD (.obj [])
  match jsGetField errorData "detail" with
  | .error _ => .error ⟨"TypeError", typeErrorNullMsg⟩
  | .ok od =>
    match od with
    | some d =>
      if jsTruthy d then .ok (jsToString d)
      else .ok ("HTTP " ++ toString resp.status)
    | none => .ok ("HTTP " ++ toString resp.status)

structure ApiRequest where
  sessionId : String
  chatSessionId : String
  messages : List (String × String)
deriving Repr, DecidableEq

structure SendResult where
  state : EngineState
  request : Option ApiRequest
  errorEvents : List ErrorEvent
  committedAssistant : Option ChatMessage
  abortedPrior : Bool
deriving Repr

/-- The optimistic synchronous phase of `sendMessage`, before `fetch` runs:
append the user message, clear error, streaming draft and both suggestion
categories, enter `sending`, create the new abort controller, and let the
save effect persist the snapshot. -/
def sendStart (uid ts : String) (s : EngineState) (content : String) : EngineState :=
  persistEffect { s with
    messages := s.messages ++ [(⟨uid, "user", jsTrim content, some ts⟩ : ChatMessage)],
    isLoading := true,
    error := none,
    streamingMessage := "",
    suggestedResponses := .arr [],
    productSuggestions := .arr [],
    abortLive := true }

/-- The request body: full prior history plus the new user turn, with the
session and conversation ids. -/
def mkRequest (s : EngineState) (content : String) : ApiRequest :=
  ⟨s.sessionId, s.chatSessionId,
    s.messages.map (fun m => (m.role, m.content)) ++ [("user", jsTrim content)]⟩

/-- The `finally` block: leave `sending`/`streaming`, clear the live draft,
drop the abort controller. -/
def finallyStep (st : EngineState) : EngineState :=
  { st with
    isLoading := false,
    isStreaming := false,
    streamingMessage := "",
    abortLive := false }

/-- The `catch` and `finally` blocks of `sendMessage`, applied to the
outcome of the `try` body: an `AbortError` is silently absorbed, any other
error is surfaced via `setError` plus a (possibly double-tracked) analytics
event, and the `finally` block always leaves `sending`/`streaming`. -/
def catchFinally (s1 : EngineState) (req : ApiRequest) (aborted : Bool)
    (run : List ErrorEvent × Except JsError (EngineState × Option ChatMessage)) :
    SendResult :=
  match run with
  | (events, .ok (s2, assistant)) =>
    ⟨finallyStep s2, some req, events, assistant, aborted⟩
  | (events, .error err) =>
    if err.name = "AbortError" then
      ⟨finallyStep s1, some req, events, none, aborted⟩
    else
      let s2 := { s1 with error := some err.message }
      let events2 :=
        if jsIncludes err.message "HTTP" || jsIncludes err.message "No response body"
        then events
        else events ++
          [⟨err.message, if err.name = "TypeError" then .network else .unknown⟩]
      ⟨finallyStep s2, some req, events2, none, aborted⟩

/-- `sendMessage` (`use-chat.ts` lines 332-563), from the guard through the
`finally` block.  `request = none` means `fetch` was never called. -/
def sendMessage (uid aid ts : String) (s : EngineState) (content : String)
    (fetch : FetchResult) : SendResult :=
  if jsTrim content = "" ∨ s.isLoading = true ∨ s.isStreaming = true then
    ⟨s, none, [], none, false⟩
  else
    let aborted := s.abortLive
    let s1 := sendStart uid ts s content
    let req : ApiRequest := mkRequest s content
    let run : List ErrorEvent × Except JsError (EngineState × Option ChatMessage) :=
      match fetch with
      | .failure err => ([], .error err)
      | .success resp =>
        if resp.ok = false then
          match httpErrorMessage resp with
          | .error e => ([], .error e)
          | .ok msg => ([⟨msg, .api⟩], .error ⟨"Error", msg⟩)
        else
          match resp.body with
          | none => ([], .error ⟨"Error", "No response body"⟩)
          | some reads =>
            match runStream reads with
            | .error e => ([⟨e.message, .api⟩], .error e)
            | .ok acc =>
              ([], .ok (commitStream aid ts
                { s1 with isLoading := false, isStreaming := true } acc))
    catchFinally s1 req aborted run

/-- `clearMessages` (`use-chat.ts` lines 567-585): empties in-memory state
and deletes the cache record; the save effect does not rewrite it because
the message list is empty. -/
def clearMessages (s : EngineState) : EngineState :=
  persistEffect { s with
    messages := [],
    error := none,
    streamingMessage := "",
    suggestedResponses := .arr [],
    productSuggestions := .arr [],
    localStore := clearChatStorage s.localStore (getStorageKeys s.keyBase).messages }

/-- `startNewChat` (`use-chat.ts` lines 587-599): aborts any in-flight
request, clears messages (including the cache record), then renews the
conversation id (`chat_` plus a generated suffix) in session storage. -/
def startNewChat (newIdSuffix : String) (s : EngineState) : EngineState :=
  let s := clearMessages { s with abortLive := false }
  let newId := "chat_" ++ newIdSuffix
  { s with
    chatSessionId := newId,
    sessionStore := (setKey s.sessionStore (getStorageKeys s.keyBase).chatSessionId newId) }

/-! ## Supporting lemmas for the claims -/

theorem startsWithL_self_append : ∀ p x : List Char, startsWithL (p ++ x) p = true
  | [], x => by cases x <;> rfl
  | c :: p, x => by simp [startsWithL, startsWithL_self_append p x]

theorem data_append_mk (p : String) (x : List Char) :
    (p ++ (⟨x⟩ : String)).data = p.data ++ x := by
  cases p
  rfl

theorem jGet_some_obj {j : Json} {k : String} {v : Json} (h : jGet j k = some v) :
    ∃ fs, j = .obj fs := by
  cases j <;> simp [jGet] at h ⊢

/-- The structured-suggestion recognizers of the `data:` branch
(`data.type === tag && Array.isArray(data[field])`). -/
def isSRFrame (j : Json) : Bool :=
  (match jGet j "type" with
   | some (.str t) => t = "suggested_responses"
   | _ => false) &&
  (match jGet j "suggested_responses" with
   | some (.arr _) => true
   | _ => false)

def isPSFrame (j : Json) : Bool :=
  (match jGet j "type" with
   | some (.str t) => t = "product_suggestions"
   | _ => false) &&
  (match jGet j "products" with
   | some (.arr _) => true
   | _ => false)

theorem append_mk (p : String) (x : List Char) :
    p ++ (⟨x⟩ : String) = ⟨p.data ++ x⟩ := by
  cases p
  rfl

/-- C5 counterexample: a `d:` line whose payload is not parseable JSON (here
the empty payload, and a bare word) yields no event at all, whereas the
claim requires every `d:`-prefixed line to map unconditionally to a
stream-end event. -/
theorem c5_counterexample :
    parseSSELine "d:" = none ∧ parseSSELine "d:notjson" = none := by
  exact ⟨rfl, rfl⟩

/-- C5 (amended): a line handled by the `d:` branch maps to a stream-end
event exactly when its payload parses as JSON to a non-null value (an
unparseable or `null` payload yields no event, the latter because the
finish-reason access throws and is swallowed); an `e:` line maps to a
stream-end event exactly when its payload parses to a value whose
`finishReason` access neither throws nor yields a falsy value. -/
theorem c5_d_e_lines (s : String) :
    (parseSSELine ("d:" ++ s) =
      (match Json.parse s with
       | some .null => none
       | some _ => some { noFields with done := some (.bool true) }
       | none => none)) ∧
    (parseSSELine ("e:" ++ s) =
      (match Json.parse s with
       | some j =>
         (match jsGetField j "finishReason" with
          | .error _ => none
          | .ok fr =>
            if truthyOpt fr then some { noFields with done := some (.bool true) }
            else none)
       | none => none)) := by
  obtain ⟨sd⟩ := s
  rw [append_mk, append_mk]
  constructor
  · rw [parseSSELine]
    simp only [jsStartsWith, startsWithL, strDrop, List.drop]
    norm_num
    cases hp : Json.parse ⟨sd⟩ with
    | none => simp
    | some j =>
      cases j <;> simp [jsGetField, truthyOpt]
  · rw [parseSSELine]
    simp only [jsStartsWith, startsWithL, strDrop, List.drop]
    norm_num
    cases hp : Json.parse ⟨sd⟩ with
    | none => simp
    | some j =>
      cases j <;> simp [jsGetField, truthyOpt]

/-- C9 counterexample: a `data:` frame whose payload carries both a
recognized structured-suggestion shape and an `error` field parses to a
suggestion event whose `error` field is absent — the error does not take
priority, contrary to the claim. -/
theorem c9_counterexample :
    parseSSELine
        "data: \x7b\"type\":\"suggested_responses\",\"suggested_responses\":[\"A\"],\"error\":\"boom\"\x7d" =
      some { noFields with suggestedResponses := some (.arr [.str "A"]) } := by
  rfl

theorem dataBranch_generic (fs : List (String × Json))
    (hs1 : isSRFrame (.obj fs) = false) (hs2 : isPSFrame (.obj fs) = false) :
    dataBranch (.obj fs) = .ok (some (eventOfJson (.obj fs))) := by
  rw [isSRFrame] at hs1
  rw [isPSFrame] at hs2
  rw [dataBranch]
  simp only [jsGetField]
  cases hty : jLookup fs "type" with
  | none => simp [jsTruthy]
  | some ty =>
    cases ty with
    | str t =>
      by_cases h1 : t = "suggested_responses"
      · subst h1
        cases ha : jGet (Json.obj fs) "suggested_responses" with
        | none => simp_all [jGet, jsTruthy]
        | some a => cases a <;> simp_all [jGet, jsTruthy]
      · by_cases h2 : t = "product_suggestions"
        · subst h2
          cases ha : jGet (Json.obj fs) "products" with
          | none => simp_all [jGet, jsTruthy]
          | some a => cases a <;> simp_all [jGet, jsTruthy]
        · simp [h1, h2, jsTruthy]
    | _ => simp [jsTruthy]

/-- C9 (amended): in a `data:` frame whose parsed payload has a truthy
`error` field, the frame parses to the payload's verbatim field record — an
error event for the consuming loop, which checks `error` before every other
field — except that a payload recognized as a structured-suggestion frame
(matching type tag together with the matching array field) is converted to a
suggestion event first, dropping the error. -/
theorem c9_error_priority (s : String) (j : Json)
    (hp : Json.parse s = some j)
    (he : truthyOpt (jGet j "error") = true)
    (hs1 : isSRFrame j = false) (hs2 : isPSFrame j = false) :
    parseSSELine ("data: " ++ s) = some (eventOfJson j) ∧
      truthyOpt (eventOfJson j).error = true := by
  obtain ⟨fs, rfl⟩ : ∃ fs, j = .obj fs := by
    cases j <;> simp [jGet, truthyOpt] at he ⊢
  obtain ⟨sd⟩ := s
  rw [append_mk]
  refine ⟨?_, by simpa [eventOfJson] using he⟩
  rw [parseSSELine]
  have hsw : jsStartsWith ⟨"data: ".data ++ sd⟩ "data: " = true :=
    startsWithL_self_append _ _
  rw [if_pos hsw]
  have hdrop : strDrop (⟨"data: ".data ++ sd⟩ : String) 6 = ⟨sd⟩ := by
    simp [strDrop, List.drop]
  rw [hdrop, hp]
  simp only [dataBranch_generic fs hs1 hs2]

theorem persistEffect_messages (s : EngineState) :
    (persistEffect s).messages = s.messages := by
  rw [persistEffect]; split <;> rfl

theorem persistEffect_suggested (s : EngineState) :
    (persistEffect s).suggestedResponses = s.suggestedResponses := by
  rw [persistEffect]; split <;> rfl

theorem persistEffect_products (s : EngineState) :
    (persistEffect s).productSuggestions = s.productSuggestions := by
  rw [persistEffect]; split <;> rfl

theorem persistEffect_error (s : EngineState) :
    (persistEffect s).error = s.error := by
  rw [persistEffect]; split <;> rfl

theorem persistEffect_chatSessionId (s : EngineState) :
    (persistEffect s).chatSessionId = s.chatSessionId := by
  rw [persistEffect]; split <;> rfl

theorem sendStart_messages (uid ts : String) (s : EngineState) (content : String) :
    (sendStart uid ts s content).messages =
      s.messages ++ [⟨uid, "user", jsTrim content, some ts⟩] := by
  rw [sendStart, persistEffect_messages]

theorem sendStart_error (uid ts : String) (s : EngineState) (content : String) :
    (sendStart uid ts s content).error = none := by
  rw [sendStart, persistEffect_error]

theorem sendStart_suggested (uid ts : String) (s : EngineState) (content : String) :
    (sendStart uid ts s content).suggestedResponses = .arr [] := by
  rw [sendStart, persistEffect_suggested]

theorem sendStart_products (uid ts : String) (s : EngineState) (content : String) :
    (sendStart uid ts s content).productSuggestions = .arr [] := by
  rw [sendStart, persistEffect_products]

/-- The commit phase either commits nothing or appends exactly one
assistant message. -/
theorem commitStream_messages (aid ts : String) (s : EngineState) (acc : StreamAcc) :
    ∃ t, (commitStream aid ts s acc).1.messages = s.messages ++ t := by
  rw [commitStream]
  split
  · exact ⟨[], by simp⟩
  · simp only []
    split <;> split <;> split <;> split <;>
      exact ⟨_, by rw [persistEffect_messages]⟩

theorem commitStream_empty (aid ts : String) (s : EngineState) (acc : StreamAcc)
    (h : acc.fullResponse = "") : commitStream aid ts s acc = (s, none) := by
  rw [commitStream, if_pos h]

/-- `sendMessage` with a successful streaming response, evaluated to its
commit and finally phases. -/
theorem sendMessage_stream (uid aid ts : String) (s : EngineState) (content : String)
    (st : Nat) (reads : List String) (acc : StreamAcc)
    (h1 : ¬ jsTrim content = "") (h2 : s.isLoading = false) (h3 : s.isStreaming = false)
    (hrun : runStream reads = .ok acc) :
    sendMessage uid aid ts s content (.success ⟨true, st, some reads⟩) =
      ⟨finallyStep (commitStream aid ts
          { sendStart uid ts s content with isLoading := false, isStreaming := true }
          acc).1,
        some (mkRequest s content), [],
        (commitStream aid ts
          { sendStart uid ts s content with isLoading := false, isStreaming := true }
          acc).2,
        s.abortLive⟩ := by
  rw [sendMessage, if_neg (by simp [h1, h2, h3])]
  simp only [hrun]
  rw [if_neg (by decide : ¬ (true = false))]
  rfl

/-- `sendMessage` with a non-ok response whose error message computed
without throwing: error state, api event (double-tracked as `unknown` when
the message does not mention `HTTP`), no assistant. -/
theorem sendMessage_http_error (uid aid ts : String) (s : EngineState) (content : String)
    (resp : HttpResponse) (msg : String)
    (h1 : ¬ jsTrim content = "") (h2 : s.isLoading = false) (h3 : s.isStreaming = false)
    (hok : resp.ok = false) (hmsg : httpErrorMessage resp = .ok msg) :
    sendMessage uid aid ts s content (.success resp) =
      ⟨finallyStep { sendStart uid ts s content with error := some msg },
        some (mkRequest s content),
        (if jsIncludes msg "HTTP" || jsIncludes msg "No response body"
         then [⟨msg, .api⟩]
         else [⟨msg, .api⟩, ⟨msg, .unknown⟩]),
        none, s.abortLive⟩ := by
  rw [sendMessage, if_neg (by simp [h1, h2, h3])]
  simp only [hok, hmsg]
  rw [if_pos trivial]
  rfl

/-- C1 counterexample: in a state with a request in flight (`streaming`,
live abort controller), `sendMessage` with non-blank text appends no user
message (the claim requires the new user message to be appended), issues no
request, and does not abort the prior in-flight request (the claim requires
cancellation). -/
theorem c1_counterexample :
    (sendMessage "u1" "a1" "T1"
        { messages := [], isLoading := false, isStreaming := true,
          streamingMessage := "", error := none, suggestedResponses := .arr [],
          productSuggestions := .arr [], sessionId := "session_1",
          chatSessionId := "chat_1", keyBase := "hocw", localStore := [],
          sessionStore := [], abortLive := true }
        "hi" (.success ⟨true, 200, some []⟩)).state.messages.length = 0 ∧
    (sendMessage "u1" "a1" "T1"
        { messages := [], isLoading := false, isStreaming := true,
          streamingMessage := "", error := none, suggestedResponses := .arr [],
          productSuggestions := .arr [], sessionId := "session_1",
          chatSessionId := "chat_1", keyBase := "hocw", localStore := [],
          sessionStore := [], abortLive := true }
        "hi" (.success ⟨true, 200, some []⟩)).request = none ∧
    (sendMessage "u1" "a1" "T1"
        { messages := [], isLoading := false, isStreaming := true,
          streamingMessage := "", error := none, suggestedResponses := .arr [],
          productSuggestions := .arr [], sessionId := "session_1",
          chatSessionId := "chat_1", keyBase := "hocw", localStore := [],
          sessionStore := [], abortLive := true }
        "hi" (.success ⟨true, 200, some []⟩)).abortedPrior = false := by
  exact ⟨rfl, rfl, rfl⟩

/-- C1 (amended): calling `sendMessage` while a request is in flight
(`sending` or `streaming`) is a complete no-op — the guard returns before
the abort, so the prior request is not cancelled and keeps running, no user
message is appended, no request is issued and no events fire. -/
theorem c1_inflight_noop (uid aid ts : String) (s : EngineState) (content : String)
    (fetch : FetchResult) (h : s.isLoading = true ∨ s.isStreaming = true) :
    sendMessage uid aid ts s content fetch = ⟨s, none, [], none, false⟩ := by
  rw [sendMessage, if_pos (Or.inr h)]

theorem c1_inflight_noop_witness :
    sendMessage "u1" "a1" "T1"
        { messages := [], isLoading := false, isStreaming := true,
          streamingMessage := "", error := none, suggestedResponses := .arr [],
          productSuggestions := .arr [], sessionId := "session_1",
          chatSessionId := "chat_1", keyBase := "hocw", localStore := [],
          sessionStore := [], abortLive := true }
        "hi" (.success ⟨true, 200, some []⟩) =
      ⟨{ messages := [], isLoading := false, isStreaming := true,
          streamingMessage := "", error := none, suggestedResponses := .arr [],
          productSuggestions := .arr [], sessionId := "session_1",
          chatSessionId := "chat_1", keyBase := "hocw", localStore := [],
          sessionStore := [], abortLive := true }, none, [], none, false⟩ :=
  c1_inflight_noop "u1" "a1" "T1" _ "hi" _ (Or.inr rfl)

theorem c9_error_priority_witness :
    parseSSELine ("data: " ++ "\x7b\"error\":\"boom\",\"chunk\":\"hi\"\x7d") =
      some (eventOfJson (.obj [("error", .str "boom"), ("chunk", .str "hi")])) ∧
      truthyOpt (eventOfJson (.obj [("error", .str "boom"), ("chunk", .str "hi")])).error =
        true :=
  c9_error_priority "\x7b\"error\":\"boom\",\"chunk\":\"hi\"\x7d"
    (.obj [("error", .str "boom"), ("chunk", .str "hi")]) rfl rfl rfl rfl

/-- A baseline idle engine state for concrete scenarios. -/
def demoIdle : EngineState :=
  { messages := [], isLoading := false, isStreaming := false, streamingMessage := "",
    error := none, suggestedResponses := .arr [], productSuggestions := .arr [],
    sessionId := "session_1", chatSessionId := "chat_1", keyBase := "hocw",
    localStore := [], sessionStore := [("hocw_chat_session_id", "chat_1")],
    abortLive := false }

theorem take_append_one {α : Type} (l : List α) (u : α) (t : List α) :
    ((l ++ [u]) ++ t).take (l.length + 1) = l ++ [u] := by
  have h : (l ++ [u]).length = l.length + 1 := by simp
  rw [← h, List.take_left]

/-- Outside the guard, `sendMessage` always issues exactly one request and
its final message list extends the optimistic append, whatever the fetch
outcome. -/
theorem sendMessage_shape (uid aid ts : String) (s : EngineState) (content : String)
    (fetch : FetchResult)
    (h1 : ¬ jsTrim content = "") (h2 : s.isLoading = false) (h3 : s.isStreaming = false) :
    (sendMessage uid aid ts s content fetch).request = some (mkRequest s content) ∧
    ∃ t, (sendMessage uid aid ts s content fetch).state.messages =
      (sendStart uid ts s content).messages ++ t := by
  rw [sendMessage, if_neg (by simp [h1, h2, h3])]
  rcases fetch with ⟨resp⟩ | ⟨err⟩
  · by_cases hok : resp.ok = false
    · rcases hm : httpErrorMessage resp with e | msg
      · simp only [hok, hm]
        rw [if_pos trivial]
        simp only [catchFinally]
        split
        · exact ⟨rfl, [], by simp [finallyStep]⟩
        · exact ⟨rfl, [], by simp [finallyStep]⟩
      · simp only [hok, hm]
        rw [if_pos trivial]
        simp only [catchFinally]
        split
        · exact ⟨rfl, [], by simp [finallyStep]⟩
        · exact ⟨rfl, [], by simp [finallyStep]⟩
    · have hok2 : resp.ok = true := by
        cases h : resp.ok
        · exact absurd h hok
        · rfl
      simp only [hok2]
      rw [if_neg (by decide : ¬ (true = false))]
      rcases hb : resp.body with _ | reads
      · simp only [hb, catchFinally]
        split
        · exact ⟨rfl, [], by simp [finallyStep]⟩
        · exact ⟨rfl, [], by simp [finallyStep]⟩
      · simp only [hb]
        rcases hr : runStream reads with e | acc
        · simp only [hr, catchFinally]
          split
          · exact ⟨rfl, [], by simp [finallyStep]⟩
          · exact ⟨rfl, [], by simp [finallyStep]⟩
        · simp only [hr, catchFinally]
          obtain ⟨t, ht⟩ := commitStream_messages aid ts
            { sendStart uid ts s content with isLoading := false, isStreaming := true } acc
          exact ⟨trivial, t, by simpa [finallyStep] using ht⟩
  · simp only [catchFinally]
    split
    · exact ⟨rfl, [], by simp [finallyStep]⟩
    · exact ⟨rfl, [], by simp [finallyStep]⟩

/-- C3: `sendMessage` is a strict no-op — no state mutation, no request —
for blank/whitespace-only text or while already sending/streaming; for
non-blank text in an idle engine it appends exactly one user message
optimistically (the message list extends the prior history by the user turn
for every possible fetch outcome, so before any network activity is
observable) and issues exactly one request carrying the prior history plus
the new turn. -/
theorem c3_guard_and_optimistic_append (uid aid ts : String) (s : EngineState)
    (content : String) (fetch : FetchResult) :
    ((jsTrim content = "" ∨ s.isLoading = true ∨ s.isStreaming = true) →
      sendMessage uid aid ts s content fetch = ⟨s, none, [], none, false⟩) ∧
    (¬ jsTrim content = "" → s.isLoading = false → s.isStreaming = false →
      (sendMessage uid aid ts s content fetch).request = some (mkRequest s content) ∧
      (sendMessage uid aid ts s content fetch).state.messages.take
          (s.messages.length + 1) =
        s.messages ++ [⟨uid, "user", jsTrim content, some ts⟩]) := by
  constructor
  · intro h
    rw [sendMessage, if_pos h]
  · intro h1 h2 h3
    obtain ⟨hreq, t, ht⟩ := sendMessage_shape uid aid ts s content fetch h1 h2 h3
    refine ⟨hreq, ?_⟩
    rw [ht, sendStart_messages, take_append_one]

theorem c3_guard_and_optimistic_append_witness :
    (sendMessage "u1" "a1" "T1" demoIdle "   " (.success ⟨true, 200, some []⟩) =
      ⟨demoIdle, none, [], none, false⟩) ∧
    ((sendMessage "u1" "a1" "T1" demoIdle "hi" (.success ⟨true, 200, some []⟩)).request =
      some (mkRequest demoIdle "hi") ∧
     (sendMessage "u1" "a1" "T1" demoIdle "hi"
          (.success ⟨true, 200, some []⟩)).state.messages.take
        (demoIdle.messages.length + 1) =
      demoIdle.messages ++ [⟨"u1", "user", jsTrim "hi", some "T1"⟩]) :=
  ⟨(c3_guard_and_optimistic_append "u1" "a1" "T1" demoIdle "   "
      (.success ⟨true, 200, some []⟩)).1 (Or.inl rfl),
   (c3_guard_and_optimistic_append "u1" "a1" "T1" demoIdle "hi"
      (.success ⟨true, 200, some []⟩)).2 (by decide) rfl rfl⟩

/-- C10: a stream that completes with empty accumulated text commits no
assistant message and leaves both suggestion categories empty (as cleared at
send time), even when SSE frames delivered suggestions during the
stream. -/
theorem c10_empty_stream_commits_nothing (uid aid ts : String) (s : EngineState)
    (content : String) (st : Nat) (reads : List String) (acc : StreamAcc)
    (h1 : ¬ jsTrim content = "") (h2 : s.isLoading = false) (h3 : s.isStreaming = false)
    (hrun : runStream reads = .ok acc) (hempty : acc.fullResponse = "") :
    (sendMessage uid aid ts s content
        (.success ⟨true, st, some reads⟩)).state.messages =
      s.messages ++ [⟨uid, "user", jsTrim content, some ts⟩] ∧
    (sendMessage uid aid ts s content
        (.success ⟨true, st, some reads⟩)).committedAssistant = none ∧
    (sendMessage uid aid ts s content
        (.success ⟨true, st, some reads⟩)).state.suggestedResponses = .arr [] ∧
    (sendMessage uid aid ts s content
        (.success ⟨true, st, some reads⟩)).state.productSuggestions = .arr [] := by
  rw [sendMessage_stream uid aid ts s content st reads acc h1 h2 h3 hrun,
    commitStream_empty _ _ _ _ hempty]
  refine ⟨?_, rfl, ?_, ?_⟩
  · simp [finallyStep, sendStart_messages]
  · simp [finallyStep, sendStart_suggested]
  · simp [finallyStep, sendStart_products]

theorem c10_empty_stream_commits_nothing_witness :
    (sendMessage "u1" "a1" "T1" demoIdle "hi"
        (.success ⟨true, 200, some
          ["data: \x7b\"type\":\"suggested_responses\",\"suggested_responses\":[\"A\"]\x7d\n",
           "data: \x7b\"done\": true\x7d\n"]⟩)).state.messages =
      demoIdle.messages ++ [⟨"u1", "user", jsTrim "hi", some "T1"⟩] ∧
    (sendMessage "u1" "a1" "T1" demoIdle "hi"
        (.success ⟨true, 200, some
          ["data: \x7b\"type\":\"suggested_responses\",\"suggested_responses\":[\"A\"]\x7d\n",
           "data: \x7b\"done\": true\x7d\n"]⟩)).committedAssistant = none ∧
    (sendMessage "u1" "a1" "T1" demoIdle "hi"
        (.success ⟨true, 200, some
          ["data: \x7b\"type\":\"suggested_responses\",\"suggested_responses\":[\"A\"]\x7d\n",
           "data: \x7b\"done\": true\x7d\n"]⟩)).state.suggestedResponses = .arr [] ∧
    (sendMessage "u1" "a1" "T1" demoIdle "hi"
        (.success ⟨true, 200, some
          ["data: \x7b\"type\":\"suggested_responses\",\"suggested_responses\":[\"A\"]\x7d\n",
           "data: \x7b\"done\": true\x7d\n"]⟩)).state.productSuggestions = .arr [] :=
  c10_empty_stream_commits_nothing "u1" "a1" "T1" demoIdle "hi" 200
    ["data: \x7b\"type\":\"suggested_responses\",\"suggested_responses\":[\"A\"]\x7d\n",
     "data: \x7b\"done\": true\x7d\n"]
    ⟨"", .arr [.str "A"], .arr []⟩ (by decide) rfl rfl rfl rfl

/-- C6: a 500 response with body `\x7b"detail":"rate limited"\x7d` leaves the
engine idle with the error message `"rate limited"`, an `api`-category error
event, the optimistic user message still in the list, and no assistant
message.  (The engine also double-tracks the same message as an `unknown`
event, which the claim does not mention.) -/
theorem c6_http_500_detail (uid aid ts : String) (s : EngineState) (content : String)
    (h1 : ¬ jsTrim content = "") (h2 : s.isLoading = false) (h3 : s.isStreaming = false) :
    (sendMessage uid aid ts s content
        (.success ⟨false, 500, some ["\x7b\"detail\":\"rate limited\"\x7d"]⟩)).state.error =
      some "rate limited" ∧
    (sendMessage uid aid ts s content
        (.success ⟨false, 500, some ["\x7b\"detail\":\"rate limited\"\x7d"]⟩)).state.isLoading =
      false ∧
    (sendMessage uid aid ts s content
        (.success ⟨false, 500, some ["\x7b\"detail\":\"rate limited\"\x7d"]⟩)).state.isStreaming =
      false ∧
    (sendMessage uid aid ts s content
        (.success ⟨false, 500, some ["\x7b\"detail\":\"rate limited\"\x7d"]⟩)).state.messages =
      s.messages ++ [⟨uid, "user", jsTrim content, some ts⟩] ∧
    (sendMessage uid aid ts s content
        (.success ⟨false, 500, some ["\x7b\"detail\":\"rate limited\"\x7d"]⟩)).committedAssistant =
      none ∧
    (⟨"rate limited", .api⟩ : ErrorEvent) ∈
      (sendMessage uid aid ts s content
        (.success ⟨false, 500, some ["\x7b\"detail\":\"rate limited\"\x7d"]⟩)).errorEvents := by
  have hm : httpErrorMessage ⟨false, 500, some ["\x7b\"detail\":\"rate limited\"\x7d"]⟩ =
      .ok "rate limited" := rfl
  rw [sendMessage_http_error uid aid ts s content _ _ h1 h2 h3 rfl hm]
  refine ⟨?_, rfl, rfl, ?_, rfl, ?_⟩
  · simp [finallyStep]
  · simp [finallyStep, sendStart_messages]
  · rw [if_neg (by decide)]
    simp

theorem c6_http_500_detail_witness :
    (sendMessage "u1" "a1" "T1" demoIdle "hi"
        (.success ⟨false, 500, some ["\x7b\"detail\":\"rate limited\"\x7d"]⟩)).state.error =
      some "rate limited" ∧
    (sendMessage "u1" "a1" "T1" demoIdle "hi"
        (.success ⟨false, 500, some ["\x7b\"detail\":\"rate limited\"\x7d"]⟩)).state.isLoading =
      false ∧
    (sendMessage "u1" "a1" "T1" demoIdle "hi"
        (.success ⟨false, 500, some ["\x7b\"detail\":\"rate limited\"\x7d"]⟩)).state.isStreaming =
      false ∧
    (sendMessage "u1" "a1" "T1" demoIdle "hi"
        (.success ⟨false, 500, some ["\x7b\"detail\":\"rate limited\"\x7d"]⟩)).state.messages =
      demoIdle.messages ++ [⟨"u1", "user", jsTrim "hi", some "T1"⟩] ∧
    (sendMessage "u1" "a1" "T1" demoIdle "hi"
        (.success ⟨false, 500, some ["\x7b\"detail\":\"rate limited\"\x7d"]⟩)).committedAssistant =
      none ∧
    (⟨"rate limited", .api⟩ : ErrorEvent) ∈
      (sendMessage "u1" "a1" "T1" demoIdle "hi"
        (.success ⟨false, 500, some ["\x7b\"detail\":\"rate limited\"\x7d"]⟩)).errorEvents :=
  c6_http_500_detail "u1" "a1" "T1" demoIdle "hi" (by decide) rfl rfl

/-- Commit with SSE-delivered replies and no SSE products: the reply
extractor is skipped (content reaches the product extractor untouched), the
product extractor's result is committed. -/
theorem commitStream_sse_replies (aid ts : String) (B : EngineState) (t t2 : String)
    (srs ps : List Json)
    (ht : ¬ t = "") (hsrs : ¬ srs = []) (hex : parseProductSuggestions t = (t2, ps))
    (hps : ¬ ps = []) :
    commitStream aid ts B ⟨t, .arr srs, .arr []⟩ =
      (persistEffect { B with
        messages := B.messages ++ [⟨aid, "assistant", t2, some ts⟩],
        suggestedResponses := .arr srs,
        productSuggestions := .arr ps },
       some ⟨aid, "assistant", t2, some ts⟩) := by
  have hz : lenEqZero (Json.arr srs) = false := by
    cases srs with
    | nil => exact absurd rfl hsrs
    | cons a l =>
      simp only [lenEqZero, jsLenVal, decide_eq_false_iff_not]
      simp
      omega
  have hg : lenGtZero (Json.arr srs) = true := by
    cases srs with
    | nil => exact absurd rfl hsrs
    | cons a l =>
      simp only [lenGtZero, jsLenVal, decide_eq_true_eq]
      simp
  have hg2 : lenGtZero (Json.arr ps) = true := by
    cases ps with
    | nil => exact absurd rfl hps
    | cons a l =>
      simp only [lenGtZero, jsLenVal, decide_eq_true_eq]
      simp
  have hz0 : lenEqZero (Json.arr []) = true := rfl
  rw [commitStream, if_neg ht]
  simp only [hz, hz0, Bool.false_eq_true, if_false, if_true, reduceIte, hex, hg, hg2]

/-- C8: when SSE delivered `["A"]` as replies and no product frame, and the
accumulated text carries an extractable product island, the committed turn
takes the replies from SSE, the products from the inline extractor applied
to the raw accumulated text (so the reply extractor did not run), and the
assistant content is the extractor's cleaned text. -/
theorem c8_sse_replies_with_text_products (uid aid ts : String) (s : EngineState)
    (content : String) (st : Nat) (reads : List String) (t t2 : String) (ps : List Json)
    (h1 : ¬ jsTrim content = "") (h2 : s.isLoading = false) (h3 : s.isStreaming = false)
    (hrun : runStream reads = .ok ⟨t, .arr [.str "A"], .arr []⟩)
    (ht : ¬ t = "")
    (hex : parseProductSuggestions t = (t2, ps))
    (hps : ¬ ps = []) :
    (sendMessage uid aid ts s content
        (.success ⟨true, st, some reads⟩)).committedAssistant =
      some ⟨aid, "assistant", t2, some ts⟩ ∧
    (sendMessage uid aid ts s content
        (.success ⟨true, st, some reads⟩)).state.suggestedResponses = .arr [.str "A"] ∧
    (sendMessage uid aid ts s content
        (.success ⟨true, st, some reads⟩)).state.productSuggestions = .arr ps := by
  rw [sendMessage_stream uid aid ts s content st reads _ h1 h2 h3 hrun,
    commitStream_sse_replies aid ts _ t t2 [.str "A"] ps ht (by simp) hex hps]
  refine ⟨rfl, ?_, ?_⟩
  · simp [finallyStep, persistEffect_suggested]
  · simp [finallyStep, persistEffect_products]

theorem c8_sse_replies_with_text_products_witness :
    (sendMessage "u1" "a1" "T1" demoIdle "hi"
        (.success ⟨true, 200, some
          ["data: \x7b\"type\":\"suggested_responses\",\"suggested_responses\":[\"A\"]\x7d\n",
           "data: \x7b\"chunk\":\"Try these \"\x7d\n",
           "data: \x7b\"chunk\":\"\x7b\\\"products\\\": [\x7b\\\"productId\\\": \\\"p1\\\"\x7d], \\\"type\\\": \\\"product_suggestions\\\"\x7d\"\x7d\n",
           "data: \x7b\"done\": true\x7d\n"]⟩)).committedAssistant =
      some ⟨"a1", "assistant", "Try these", some "T1"⟩ ∧
    (sendMessage "u1" "a1" "T1" demoIdle "hi"
        (.success ⟨true, 200, some
          ["data: \x7b\"type\":\"suggested_responses\",\"suggested_responses\":[\"A\"]\x7d\n",
           "data: \x7b\"chunk\":\"Try these \"\x7d\n",
           "data: \x7b\"chunk\":\"\x7b\\\"products\\\": [\x7b\\\"productId\\\": \\\"p1\\\"\x7d], \\\"type\\\": \\\"product_suggestions\\\"\x7d\"\x7d\n",
           "data: \x7b\"done\": true\x7d\n"]⟩)).state.suggestedResponses = .arr [.str "A"] ∧
    (sendMessage "u1" "a1" "T1" demoIdle "hi"
        (.success ⟨true, 200, some
          ["data: \x7b\"type\":\"suggested_responses\",\"suggested_responses\":[\"A\"]\x7d\n",
           "data: \x7b\"chunk\":\"Try these \"\x7d\n",
           "data: \x7b\"chunk\":\"\x7b\\\"products\\\": [\x7b\\\"productId\\\": \\\"p1\\\"\x7d], \\\"type\\\": \\\"product_suggestions\\\"\x7d\"\x7d\n",
           "data: \x7b\"done\": true\x7d\n"]⟩)).state.productSuggestions =
      .arr [.obj [("productId", .str "p1")]] :=
  c8_sse_replies_with_text_products "u1" "a1" "T1" demoIdle "hi" 200
    ["data: \x7b\"type\":\"suggested_responses\",\"suggested_responses\":[\"A\"]\x7d\n",
     "data: \x7b\"chunk\":\"Try these \"\x7d\n",
     "data: \x7b\"chunk\":\"\x7b\\\"products\\\": [\x7b\\\"productId\\\": \\\"p1\\\"\x7d], \\\"type\\\": \\\"product_suggestions\\\"\x7d\"\x7d\n",
     "data: \x7b\"done\": true\x7d\n"]
    "Try these \x7b\"products\": [\x7b\"productId\": \"p1\"\x7d], \"type\": \"product_suggestions\"\x7d"
    "Try these" [.obj [("productId", .str "p1")]]
    (by decide) rfl rfl rfl (by decide) rfl (by simp)

theorem lookup_filter_ne (k : String) : ∀ st : List (String × String),
    List.lookup k (st.filter (fun p => p.1 ≠ k)) = none
  | [] => rfl
  | (a, b) :: rest => by
    by_cases h : a = k
    · simpa [List.filter, h] using lookup_filter_ne k rest
    · have hba : (k == a) = false := beq_eq_false_iff_ne.mpr (Ne.symm h)
      simp [List.filter, h, List.lookup, hba, lookup_filter_ne k rest]
      exact fun x y _ hx hk => hx hk.symm

theorem getKey_removeKey (st : List (String × String)) (k : String) :
    getKey (removeKey st k) k = none :=
  lookup_filter_ne k st

theorem persistEffect_empty (s : EngineState) (h : s.messages = []) :
    persistEffect s = s := by
  rw [persistEffect, if_neg]
  simp [h]

theorem clearMessages_eq (s : EngineState) :
    clearMessages s = { s with
      messages := [],
      error := none,
      streamingMessage := "",
      suggestedResponses := .arr [],
      productSuggestions := .arr [],
      localStore := clearChatStorage s.localStore (getStorageKeys s.keyBase).messages } := by
  rw [clearMessages, persistEffect_empty _ rfl]

/-- C2 counterexample: with a snapshot for conversation `"conv-1"` saved in
the cache, `startNewChat` leaves a state from which loading `"conv-1"`
returns absent — the record was deleted by `clearMessages`, not left intact
as the claim requires (the first conjunct shows the record was loadable
before the call). -/
theorem c2_counterexample :
    loadForSession
        (saveChatToStorage [] "hocw_chat_messages" "conv-1"
          [⟨"m1", "user", "hello", some "T0"⟩] (.arr []) (.arr []))
        "hocw_chat_messages" "conv-1" =
      some ⟨"conv-1", [⟨"m1", "user", "hello", some "T0"⟩], .arr [], .arr []⟩ ∧
    loadForSession
        (startNewChat "fresh"
          { messages := [⟨"m1", "user", "hello", some "T0"⟩], isLoading := false,
            isStreaming := false, streamingMessage := "", error := none,
            suggestedResponses := .arr [], productSuggestions := .arr [],
            sessionId := "session_1", chatSessionId := "conv-1", keyBase := "hocw",
            localStore := (saveChatToStorage [] "hocw_chat_messages" "conv-1"
              [⟨"m1", "user", "hello", some "T0"⟩] (.arr []) (.arr [])),
            sessionStore := [("hocw_chat_session_id", "conv-1")],
            abortLive := false }).localStore
        "hocw_chat_messages" "conv-1" = none := by
  exact ⟨rfl, rfl⟩

/-- C2 (amended): `startNewChat` clears the in-memory messages and
suggestions and renews the conversation id, but it deletes the conversation
cache record rather than leaving it intact: afterwards loading any
conversation id — in particular the old one — returns absent. -/
theorem c2_startNewChat (suffix : String) (s : EngineState)
    (h : ¬ ("chat_" ++ suffix) = s.chatSessionId) :
    (startNewChat suffix s).messages = [] ∧
    (startNewChat suffix s).suggestedResponses = .arr [] ∧
    (startNewChat suffix s).productSuggestions = .arr [] ∧
    (startNewChat suffix s).chatSessionId = "chat_" ++ suffix ∧
    ¬ (startNewChat suffix s).chatSessionId = s.chatSessionId ∧
    (∀ cid, loadForSession (startNewChat suffix s).localStore
      (getStorageKeys s.keyBase).messages cid = none) := by
  rw [startNewChat, clearMessages_eq]
  refine ⟨rfl, rfl, rfl, rfl, h, ?_⟩
  intro cid
  rw [loadForSession, loadCachedChat]
  have hk : getKey
      (clearChatStorage s.localStore (getStorageKeys s.keyBase).messages)
      (getStorageKeys s.keyBase).messages = none :=
    getKey_removeKey s.localStore (getStorageKeys s.keyBase).messages
  rw [hk]

theorem c2_startNewChat_witness :
    (startNewChat "fresh" demoIdle).messages = [] ∧
    (startNewChat "fresh" demoIdle).suggestedResponses = .arr [] ∧
    (startNewChat "fresh" demoIdle).productSuggestions = .arr [] ∧
    (startNewChat "fresh" demoIdle).chatSessionId = "chat_" ++ "fresh" ∧
    ¬ (startNewChat "fresh" demoIdle).chatSessionId = demoIdle.chatSessionId ∧
    (∀ cid, loadForSession (startNewChat "fresh" demoIdle).localStore
      (getStorageKeys demoIdle.keyBase).messages cid = none) :=
  c2_startNewChat "fresh" demoIdle (by decide)

theorem getKey_setKey_self (st : List (String × String)) (k v : String) :
    getKey (setKey st k v) k = some v := by
  simp [getKey, setKey, List.lookup]

theorem decodeMessage_encodeMessage (m : ChatMessage)
    (h : ¬ m.timestamp = some "") :
    decodeMessage (encodeMessage m) = some m := by
  rcases m with ⟨i, r, c, ts⟩
  cases ts with
  | none => rfl
  | some t =>
    have ht : ¬ t = "" := fun he => h (by rw [he])
    show some (⟨i, r, c, if t = "" then none else some t⟩ : ChatMessage) =
      some ⟨i, r, c, some t⟩
    rw [if_neg ht]

theorem mapM_decode_encode : ∀ ms : List ChatMessage,
    (∀ m ∈ ms, ¬ m.timestamp = some "") →
    (ms.map encodeMessage).mapM decodeMessage = some ms
  | [], _ => rfl
  | m :: rest, h => by
    have h1 := decodeMessage_encodeMessage m (h m (List.mem_cons_self m rest))
    have h2 := mapM_decode_encode rest (fun x hx => h x (List.mem_cons_of_mem m hx))
    rw [← List.mapM'_eq_mapM] at h2 ⊢
    simp [List.mapM', h1, h2]

theorem decodeStored_encodeStored (d : StoredChatData)
    (h : ∀ m ∈ d.messages, ¬ m.timestamp = some "") :
    decodeStored (encodeStored d) = some d := by
  rcases d with ⟨cid, ms, sr, ps⟩
  show (match (ms.map encodeMessage).mapM decodeMessage with
    | some msgs => some (⟨cid, msgs, sr, ps⟩ : StoredChatData)
    | none => none) = some ⟨cid, ms, sr, ps⟩
  rw [mapM_decode_encode ms h]

/-- C7: `save(snapshot)` followed by a load with the same conversation id
returns the snapshot (messages, suggested replies and product suggestions
preserved), while a load with any other conversation id returns absent.
The hypothesis rules out the empty-string timestamp, which the timestamp
revival of `loadCachedChat` maps to the absent timestamp; the save path
never produces it (timestamps are serialized instants). -/
theorem c7_save_load_roundtrip (store : List (String × String)) (key : String)
    (d : StoredChatData) (h : ∀ m ∈ d.messages, ¬ m.timestamp = some "") :
    loadForSession (saveChatToStorage store key d.chatSessionId d.messages
        d.suggestedResponses d.productSuggestions) key d.chatSessionId = some d ∧
    (∀ cid, ¬ cid = d.chatSessionId →
      loadForSession (saveChatToStorage store key d.chatSessionId d.messages
        d.suggestedResponses d.productSuggestions) key cid = none) := by
  have hload : loadCachedChat (saveChatToStorage store key d.chatSessionId
      d.messages d.suggestedResponses d.productSuggestions) key = some d := by
    rw [loadCachedChat, saveChatToStorage, getKey_setKey_self]
    show (match Json.parse (Json.stringify (encodeStored ⟨d.chatSessionId,
        d.messages, d.suggestedResponses, d.productSuggestions⟩)) with
      | some j => decodeStored j
      | none => none) = some d
    rw [parse_stringify]
    exact decodeStored_encodeStored
      ⟨d.chatSessionId, d.messages, d.suggestedResponses, d.productSuggestions⟩ h
  constructor
  · rw [loadForSession, hload]
    exact if_pos rfl
  · intro cid hcid
    rw [loadForSession, hload]
    exact if_neg (fun he => hcid he.symm)

theorem c7_save_load_roundtrip_witness :
    loadForSession (saveChatToStorage [] "hocw_chat_messages" "conv-1"
        [⟨"m1", "user", "hello", some "T0"⟩] (.arr [.str "A"]) (.arr []))
      "hocw_chat_messages" "conv-1" =
      some ⟨"conv-1", [⟨"m1", "user", "hello", some "T0"⟩],
        .arr [.str "A"], .arr []⟩ ∧
    loadForSession (saveChatToStorage [] "hocw_chat_messages" "conv-1"
        [⟨"m1", "user", "hello", some "T0"⟩] (.arr [.str "A"]) (.arr []))
      "hocw_chat_messages" "other" = none := by
  have h := c7_save_load_roundtrip [] "hocw_chat_messages"
    ⟨"conv-1", [⟨"m1", "user", "hello", some "T0"⟩], .arr [.str "A"], .arr []⟩
    (by decide)
  exact ⟨h.1, h.2 "other" (by decide)⟩

/-! ## C4: the two SSE dialects -/

theorem data_append (a b : String) : (a ++ b).data = a.data ++ b.data := by
  cases a
  cases b
  rfl

theorem str_append_nil (s : String) : s ++ "" = s := by
  cases s with
  | mk d => exact congrArg String.mk (List.append_nil d)

theorem str_nil_append (s : String) : "" ++ s = s := by
  cases s with
  | mk d => rfl

theorem str_append_assoc (a b c : String) : (a ++ b) ++ c = a ++ (b ++ c) := by
  cases a with
  | mk x =>
    cases b with
    | mk y =>
      cases c with
      | mk z => exact congrArg String.mk (List.append_assoc x y z)

theorem hexDigit_ne_newline : ∀ n, n < 16 → ¬ hexDigit n = '\n' := by decide

theorem escapeChar_no_newline (c : Char) : ¬ '\n' ∈ escapeChar c := by
  rw [escapeChar]
  split_ifs with h1 h2 h3 h4 h5 h6 h7 h8
  · decide
  · decide
  · decide
  · decide
  · decide
  · decide
  · decide
  · intro hm
    simp only [List.mem_cons, List.not_mem_nil, or_false] at hm
    rcases hm with h | h | h | h | h | h
    · exact absurd h (by decide)
    · exact absurd h (by decide)
    · exact absurd h (by decide)
    · exact absurd h (by decide)
    · exact hexDigit_ne_newline (c.toNat / 16) (by omega) h.symm
    · exact hexDigit_ne_newline (c.toNat % 16) (by omega) h.symm
  · intro hm
    simp only [List.mem_cons, List.not_mem_nil, or_false] at hm
    exact h5 hm.symm

theorem escapeList_no_newline (l : List Char) : ¬ '\n' ∈ escapeList l := by
  induction l with
  | nil => simp [escapeList]
  | cons c cs ih =>
    rw [escapeList]
    intro hm
    rcases List.mem_append.mp hm with h | h
    · exact escapeChar_no_newline c h
    · exact ih h

theorem splitNl_append : ∀ (l r : List Char), ¬ '\n' ∈ l →
    splitNl (l ++ '\n' :: r) = l :: splitNl r
  | [], r, _ => by rw [List.nil_append, splitNl, if_pos rfl]
  | c :: cs, r, h => by
    have hc : ¬ c = '\n' := fun he => h (by rw [he]; exact List.mem_cons_self _ _)
    have hcs : ¬ '\n' ∈ cs := fun hm => h (List.mem_cons_of_mem c hm)
    rw [List.cons_append, splitNl, if_neg hc, splitNl_append cs r hcs]

theorem dropWhileSpace_cons_ns (c : Char) (cs : List Char) (h : jsIsSpace c = false) :
    dropWhileSpace (c :: cs) = c :: cs := by
  simp [dropWhileSpace, h]

theorem jsTrim_shape (a : Char) (mid : List Char) (b : Char)
    (ha : jsIsSpace a = false) (hb : jsIsSpace b = false) :
    jsTrim ⟨a :: (mid ++ [b])⟩ = ⟨a :: (mid ++ [b])⟩ := by
  show (⟨dropWhileSpace (dropWhileSpace (a :: (mid ++ [b])).reverse).reverse⟩ : String) = _
  have h1 : (a :: (mid ++ [b])).reverse = b :: (mid.reverse ++ [a]) := by
    simp
  rw [h1, dropWhileSpace_cons_ns b _ hb]
  have h2 : (b :: (mid.reverse ++ [a])).reverse = a :: (mid ++ [b]) := by
    simp
  rw [h2, dropWhileSpace_cons_ns a _ ha]

/-- A dialect-A text frame: `data: ` plus a JSON object with a `chunk`
field. -/
def frameA (c : String) : String :=
  "data: " ++ Json.stringify (.obj [("chunk", .str c)])

/-- The dialect-A terminator: `data: ` plus a JSON object with a truthy
`done` field. -/
def doneFrameA : String :=
  "data: " ++ Json.stringify (.obj [("done", .bool true)])

/-- A dialect-B text frame: `0:` plus a JSON string. -/
def frameB (c : String) : String :=
  "0:" ++ Json.stringify (.str c)

/-- The dialect-B terminator: `d:` plus an (empty) JSON object. -/
def doneFrameB : String :=
  "d:" ++ Json.stringify (.obj [])

/-- The event a text frame of either dialect produces. -/
def chunkEv (c : String) : SSEEvent :=
  { noFields with chunk := some (.str c) }

def joinAll : List String → String
  | [] => ""
  | c :: cs => c ++ joinAll cs

/-- The read sequence for dialect A: one line per read, each terminated by a
line feed. -/
def dialectA (cs : List String) : List String :=
  cs.map (fun c => frameA c ++ "\n") ++ [doneFrameA ++ "\n"]

/-- The read sequence for dialect B. -/
def dialectB (cs : List String) : List String :=
  cs.map (fun c => frameB c ++ "\n") ++ [doneFrameB ++ "\n"]

def midA (c : String) : List Char :=
  ['a', 't', 'a', ':', ' ', '\x7b', '"', 'c', 'h', 'u', 'n', 'k', '"', ':', '"'] ++
    (escapeList c.data ++ ['"'])

def midB (c : String) : List Char :=
  [':', '"'] ++ escapeList c.data

theorem frameA_mk (c : String) : frameA c = ⟨'d' :: (midA c ++ ['\x7d'])⟩ := rfl

theorem frameB_mk (c : String) : frameB c = ⟨'0' :: (midB c ++ ['"'])⟩ := rfl

theorem midA_no_newline (c : String) : ¬ '\n' ∈ midA c := by
  rw [midA]
  intro hm
  rcases List.mem_append.mp hm with h | h
  · exact absurd h (by decide)
  · rcases List.mem_append.mp h with h2 | h2
    · exact escapeList_no_newline _ h2
    · exact absurd h2 (by decide)

theorem midB_no_newline (c : String) : ¬ '\n' ∈ midB c := by
  rw [midB]
  intro hm
  rcases List.mem_append.mp hm with h | h
  · exact absurd h (by decide)
  · exact escapeList_no_newline _ h

theorem frameA_no_newline (c : String) : ¬ '\n' ∈ (frameA c).data := by
  show ¬ '\n' ∈ 'd' :: (midA c ++ ['\x7d'])
  intro hm
  rcases List.mem_cons.mp hm with h | h
  · exact absurd h (by decide)
  · rcases List.mem_append.mp h with h2 | h2
    · exact midA_no_newline c h2
    · exact absurd h2 (by decide)

theorem frameB_no_newline (c : String) : ¬ '\n' ∈ (frameB c).data := by
  show ¬ '\n' ∈ '0' :: (midB c ++ ['"'])
  intro hm
  rcases List.mem_cons.mp hm with h | h
  · exact absurd h (by decide)
  · rcases List.mem_append.mp h with h2 | h2
    · exact midB_no_newline c h2
    · exact absurd h2 (by decide)

theorem frameA_trim (c : String) : jsTrim (frameA c) = frameA c := by
  rw [frameA_mk]
  exact jsTrim_shape 'd' (midA c) '\x7d' (by decide) (by decide)

theorem frameB_trim (c : String) : jsTrim (frameB c) = frameB c := by
  rw [frameB_mk]
  exact jsTrim_shape '0' (midB c) '"' (by decide) (by decide)

theorem frameA_ne_empty (c : String) : ¬ frameA c = "" := by
  rw [frameA_mk]
  intro h
  have h2 : 'd' :: (midA c ++ ['\x7d']) = [] := congrArg String.data h
  exact List.noConfusion h2

theorem frameB_ne_empty (c : String) : ¬ frameB c = "" := by
  rw [frameB_mk]
  intro h
  have h2 : '0' :: (midB c ++ ['"']) = [] := congrArg String.data h
  exact List.noConfusion h2

theorem parseSSELine_frameA (c : String) :
    parseSSELine (frameA c) = some (chunkEv c) := by
  have hs : jsStartsWith (frameA c) "data: " = true := by
    rw [frameA, jsStartsWith, data_append]
    exact startsWithL_self_append _ _
  have hd : strDrop (frameA c) 6 = Json.stringify (.obj [("chunk", .str c)]) := by
    rw [frameA, strDrop, data_append,
      show (6 : Nat) = ("data: " : String).data.length from rfl, List.drop_left]
  rw [parseSSELine, if_pos hs, hd, parse_stringify]
  rfl

theorem parseSSELine_frameB (c : String) :
    parseSSELine (frameB c) = some (chunkEv c) := by
  have hf : jsStartsWith (frameB c) "data: " = false := by
    rw [frameB_mk]
    rfl
  have hns : ¬ jsStartsWith (frameB c) "data: " = true :=
    fun h => absurd (hf.symm.trans h) Bool.false_ne_true
  have hs0 : jsStartsWith (frameB c) "0:" = true := by
    rw [frameB, jsStartsWith, data_append]
    exact startsWithL_self_append _ _
  have hd : strDrop (frameB c) 2 = Json.stringify (.str c) := by
    rw [frameB, strDrop, data_append,
      show (2 : Nat) = ("0:" : String).data.length from rfl, List.drop_left]
  rw [parseSSELine, if_neg hns, if_pos hs0, hd, parse_stringify]
  rfl

theorem processLines_single (f : String) (acc : StreamAcc) (p : SSEEvent)
    (ht : jsTrim f = f) (hne : ¬ f = "") (hp : parseSSELine f = some p)
    (he : truthyOpt p.error = false) (hd : truthyOpt p.done = false) :
    processLines [f] acc = .ok (applyChunkFields acc p) := by
  rw [processLines]
  simp only [ht]
  rw [if_neg hne, hp]
  show (if truthyOpt p.error = true then _ else _) = _
  rw [if_neg (by rw [he]; exact Bool.false_ne_true), if_neg (by rw [hd]; exact Bool.false_ne_true)]
  rfl

theorem readLoop_frame_step (f : String) (rest : List String) (acc : StreamAcc)
    (p : SSEEvent)
    (hnl : ¬ '\n' ∈ f.data)
    (ht : jsTrim f = f)
    (hne : ¬ f = "")
    (hp : parseSSELine f = some p)
    (he : truthyOpt p.error = false)
    (hd : truthyOpt p.done = false) :
    readLoop ((f ++ "\n") :: rest) "" acc =
      readLoop rest "" (applyChunkFields acc p) := by
  have hsplit : splitNl ((("" : String) ++ (f ++ "\n")).data) = f.data :: [[]] := by
    rw [data_append, data_append]
    show splitNl ([] ++ (f.data ++ '\n' :: [])) = _
    rw [List.nil_append, splitNl_append f.data [] hnl]
    rfl
  rw [readLoop]
  simp only [hsplit, List.dropLast, List.map, List.getLast?]
  rw [show (⟨f.data⟩ : String) = f from rfl, processLines_single f acc p ht hne hp he hd]
  rfl

theorem readLoop_doneA (acc : StreamAcc) :
    readLoop [doneFrameA ++ "\n"] "" acc = .ok ("", acc) := rfl

theorem readLoop_doneB (acc : StreamAcc) :
    readLoop [doneFrameB ++ "\n"] "" acc = .ok ("", acc) := rfl

theorem applyChunkFields_chunkEv (acc : StreamAcc) (c : String) :
    applyChunkFields acc (chunkEv c) =
      { acc with fullResponse := acc.fullResponse ++ c } := by
  by_cases h : c = ""
  · subst h
    show acc = { acc with fullResponse := acc.fullResponse ++ "" }
    rw [str_append_nil]
  · simp [applyChunkFields, chunkEv, noFields, truthyOpt, jsTruthy, h,
      jsToString, jsToStringDepth]

theorem readLoop_dialectA : ∀ (cs : List String) (acc : StreamAcc),
    readLoop (dialectA cs) "" acc =
      .ok ("", { acc with fullResponse := acc.fullResponse ++ joinAll cs })
  | [], acc => by
    show readLoop [doneFrameA ++ "\n"] "" acc = _
    rw [readLoop_doneA, joinAll, str_append_nil]
  | c :: cs', acc => by
    show readLoop ((frameA c ++ "\n") :: dialectA cs') "" acc = _
    rw [readLoop_frame_step (frameA c) (dialectA cs') acc (chunkEv c)
        (frameA_no_newline c) (frameA_trim c) (frameA_ne_empty c)
        (parseSSELine_frameA c) rfl rfl,
      applyChunkFields_chunkEv, readLoop_dialectA cs', joinAll,
      ← str_append_assoc]

theorem readLoop_dialectB : ∀ (cs : List String) (acc : StreamAcc),
    readLoop (dialectB cs) "" acc =
      .ok ("", { acc with fullResponse := acc.fullResponse ++ joinAll cs })
  | [], acc => by
    show readLoop [doneFrameB ++ "\n"] "" acc = _
    rw [readLoop_doneB, joinAll, str_append_nil]
  | c :: cs', acc => by
    show readLoop ((frameB c ++ "\n") :: dialectB cs') "" acc = _
    rw [readLoop_frame_step (frameB c) (dialectB cs') acc (chunkEv c)
        (frameB_no_newline c) (frameB_trim c) (frameB_ne_empty c)
        (parseSSELine_frameB c) rfl rfl,
      applyChunkFields_chunkEv, readLoop_dialectB cs', joinAll,
      ← str_append_assoc]

theorem runStream_dialectA (cs : List String) :
    runStream (dialectA cs) = .ok ⟨joinAll cs, .arr [], .arr []⟩ := by
  rw [runStream, show initAcc = (⟨"", .arr [], .arr []⟩ : StreamAcc) from rfl,
    readLoop_dialectA cs ⟨"", .arr [], .arr []⟩, str_nil_append]
  rfl

theorem runStream_dialectB (cs : List String) :
    runStream (dialectB cs) = .ok ⟨joinAll cs, .arr [], .arr []⟩ := by
  rw [runStream, show initAcc = (⟨"", .arr [], .arr []⟩ : StreamAcc) from rfl,
    readLoop_dialectB cs ⟨"", .arr [], .arr []⟩, str_nil_append]
  rfl

/-- C4: a text delivered as dialect-A frames (`data: ` JSON objects with
`chunk` fields, closed by a truthy `done` object) and as dialect-B frames
(`0:` JSON strings, closed by `d:` metadata) accumulates to the same text,
and `sendMessage` run against the two response bodies returns identical
results — in particular it commits byte-identical assistant content. -/
theorem c4_dialect_equivalence (uid aid ts content : String) (s : EngineState)
    (cs : List String)
    (h1 : ¬ jsTrim content = "") (h2 : s.isLoading = false)
    (h3 : s.isStreaming = false) :
    runStream (dialectA cs) = .ok ⟨joinAll cs, .arr [], .arr []⟩ ∧
    runStream (dialectB cs) = .ok ⟨joinAll cs, .arr [], .arr []⟩ ∧
    sendMessage uid aid ts s content (.success ⟨true, 200, some (dialectA cs)⟩) =
      sendMessage uid aid ts s content (.success ⟨true, 200, some (dialectB cs)⟩) := by
  refine ⟨runStream_dialectA cs, runStream_dialectB cs, ?_⟩
  rw [sendMessage_stream uid aid ts s content 200 (dialectA cs) _ h1 h2 h3
      (runStream_dialectA cs),
    sendMessage_stream uid aid ts s content 200 (dialectB cs) _ h1 h2 h3
      (runStream_dialectB cs)]

theorem c4_dialect_equivalence_witness :
    runStream (dialectA ["He", "llo"]) =
      .ok ⟨joinAll ["He", "llo"], .arr [], .arr []⟩ ∧
    runStream (dialectB ["He", "llo"]) =
      .ok ⟨joinAll ["He", "llo"], .arr [], .arr []⟩ ∧
    sendMessage "u1" "a1" "T1" demoIdle "hi"
        (.success ⟨true, 200, some (dialectA ["He", "llo"])⟩) =
      sendMessage "u1" "a1" "T1" demoIdle "hi"
        (.success ⟨true, 200, some (dialectB ["He", "llo"])⟩) :=
  c4_dialect_equivalence "u1" "a1" "T1" "hi" demoIdle ["He", "llo"]
    (by decide) rfl rfl

end ChatWidget
